import Mathlib

/-!
Verification of the Nightwatch incident-resolution engine.

This file shallowly embeds the parts of the TypeScript source that the
spec claims talk about: the command validator (src/execution/validator.ts),
the command executor (src/execution/executor.ts), the validate/verify/plan
capabilities (src/capabilities/...), the log filter and batcher
(src/observation/logBuffer.ts) and the orchestrator loop
(src/orchestration/workflow.ts).  JavaScript regular expressions are
embedded via a small total matching engine over character lists; effectful
calls (command execution, the LLM agent, timers, human interaction) are
modelled as explicit oracles / action traces.
-/

namespace Nightwatch

/-! ## Character classes and JS string helpers -/

/-- Characters matched by the JavaScript regex class `\s` (also the set
removed by `String.prototype.trim`). -/
def isSpaceChar (c : Char) : Bool :=
  c = ' ' || c = '\t' || c = '\n' || c = '\r' ||
  c = '\x0b' || c = '\x0c' ||
  c = ' ' || c = ' ' ||
  (0x2000 ≤ c.toNat && c.toNat ≤ 0x200a) ||
  c = ' ' || c = ' ' || c = ' ' || c = ' ' ||
  c = '　' || c = '﻿'

/-- Characters matched by the JavaScript regex class `\w`: `[A-Za-z0-9_]`. -/
def isWordChar (c : Char) : Bool :=
  c.isAlphanum || c = '_'

/-- Characters matched by `[a-zA-Z_]` (start of an identifier). -/
def isIdentStart (c : Char) : Bool :=
  c.isAlpha || c = '_'

/-- Characters matched by the JavaScript regex `.` (anything but a line
terminator). -/
def isDotChar (c : Char) : Bool :=
  !(c = '\n' || c = '\r' || c = ' ' || c = ' ')

/-- The backquote character (U+0060). -/
def backquoteChar : Char := Char.ofNat 96

/-- JavaScript `String.prototype.trim` on a character list. -/
def jsTrim (l : List Char) : List Char :=
  ((l.dropWhile isSpaceChar).reverse.dropWhile isSpaceChar).reverse

/-- Lower-case a character list (JS `toLowerCase`; ASCII range). -/
def lowerStr (l : List Char) : List Char :=
  l.map Char.toLower

/-! ## A small total regex engine

The blocked patterns of the validator and the error patterns of the log
filter only use literals, character classes, `?`, `*`/`+` over character
classes, alternation and the word-boundary assertion `\b`, so this small
abstract syntax suffices.  `matchRE` returns every possible
(previous-character, remaining-input) pair after a match, which makes the
backtracking of the JavaScript engine explicit while staying total. -/

inductive RE where
  | eps : RE
  | cls (p : Char → Bool) : RE
  | seq (a b : RE) : RE
  | alt (a b : RE) : RE
  | bound : RE
  | many (p : Char → Bool) : RE

/-- Word-boundary test between an optional previous character and the rest
of the input (JS `\b`). -/
def boundAt (prev : Option Char) (next : List Char) : Bool :=
  (match prev with | some c => isWordChar c | none => false) !=
  (match next with | c :: _ => isWordChar c | [] => false)

/-- All ways of consuming a (possibly empty) run of characters satisfying
`p`, returning the character preceding the rest together with the rest. -/
def manySplits (p : Char → Bool) : Option Char → List Char → List (Option Char × List Char)
  | prev, [] => [(prev, [])]
  | prev, c :: cs =>
    (prev, c :: cs) :: (if p c then manySplits p (some c) cs else [])

/-- All matches of `r` anchored at the current position. -/
def matchRE : RE → Option Char → List Char → List (Option Char × List Char)
  | .eps, prev, l => [(prev, l)]
  | .cls _, _, [] => []
  | .cls p, _, c :: cs => if p c then [(some c, cs)] else []
  | .seq a b, prev, l => (matchRE a prev l).flatMap fun pr => matchRE b pr.1 pr.2
  | .alt a b, prev, l => matchRE a prev l ++ matchRE b prev l
  | .bound, prev, l => if boundAt prev l then [(prev, l)] else []
  | .many p, prev, l => manySplits p prev l

/-- Does `r` match anywhere at or after the current position? -/
def reTestFrom (r : RE) : Option Char → List Char → Bool
  | prev, [] => !(matchRE r prev []).isEmpty
  | prev, c :: cs => !(matchRE r prev (c :: cs)).isEmpty || reTestFrom r (some c) cs

/-- JS `pattern.test(s)`: does `r` match anywhere in `l`? -/
def reTest (r : RE) (l : List Char) : Bool :=
  reTestFrom r none l

/-- Case-sensitive literal. -/
def lit (s : String) : RE :=
  s.toList.foldr (fun c r => RE.seq (RE.cls (· = c)) r) RE.eps

/-- Case-insensitive literal (the regex `/i` flag). -/
def litCI (s : String) : RE :=
  s.toList.foldr (fun c r => RE.seq (RE.cls (fun d => d.toLower = c.toLower)) r) RE.eps

/-- One or more characters of a class (`p+`). -/
def many1 (p : Char → Bool) : RE :=
  RE.seq (RE.cls p) (RE.many p)

/-- Optional regex (`r?`). -/
def opt (r : RE) : RE :=
  RE.alt r RE.eps

/-- Alternation of a list of regexes (`a|b|...`); the empty list never
matches. -/
def alts (rs : List RE) : RE :=
  rs.foldr RE.alt (RE.cls fun _ => false)

/-! ## Command validator (src/execution/validator.ts)

Each entry of `BLOCKED_PATTERNS` pairs a test over the trimmed command with
the reason of the corresponding `RegExp` in the source.  The first entry,
`/^(?!docker\s)/i`, is a negative lookahead anchored at the start; it tests
true exactly when the command does not start (case-insensitively) with
`docker` followed by a whitespace character. -/

/-- Anchored-at-start regex for `docker` followed by `\s`, case-insensitive. -/
def dockerStartRE : RE := RE.seq (litCI "docker") (RE.cls isSpaceChar)

/-- Regex `\bsh\s+-c\b` (case-insensitive). -/
def reShC : RE :=
  RE.seq RE.bound (RE.seq (litCI "sh")
    (RE.seq (many1 isSpaceChar) (RE.seq (litCI "-c") RE.bound)))

/-- Regex `\bbash\s+-c\b` (case-insensitive). -/
def reBashC : RE :=
  RE.seq RE.bound (RE.seq (litCI "bash")
    (RE.seq (many1 isSpaceChar) (RE.seq (litCI "-c") RE.bound)))

/-- Regex `\b[a-zA-Z_][a-zA-Z0-9_]*=` (variable assignment). -/
def reVarAssign : RE :=
  RE.seq RE.bound (RE.seq (RE.cls isIdentStart)
    (RE.seq (RE.many isWordChar) (RE.cls (· = '='))))

/-- Regex `rm\s+-rf\s+\/`. -/
def reRmRf : RE :=
  RE.seq (lit "rm") (RE.seq (many1 isSpaceChar)
    (RE.seq (lit "-rf") (RE.seq (many1 isSpaceChar) (RE.cls (· = '/')))))

/-- Regex `rm\s+-rf\s+\/\*`. -/
def reRmRfStar : RE :=
  RE.seq reRmRf (RE.cls (· = '*'))

/-- Regex `dd\s+if=`. -/
def reDdIf : RE :=
  RE.seq (lit "dd") (RE.seq (many1 isSpaceChar) (lit "if="))

/-- Regex `mkfs(\.\w+)?`. -/
def reMkfs : RE :=
  RE.seq (lit "mkfs") (opt (RE.seq (RE.cls (· = '.')) (many1 isWordChar)))

/-- Regex `>\s*\/dev\/sd[a-z]`. -/
def reDevSd : RE :=
  RE.seq (RE.cls (· = '>')) (RE.seq (RE.many isSpaceChar)
    (RE.seq (lit "/dev/sd") (RE.cls Char.isLower)))

/-- Regex `curl\s+.*\|\s*(bash|sh)` (case-insensitive). -/
def reCurlPipe : RE :=
  RE.seq (litCI "curl") (RE.seq (many1 isSpaceChar)
    (RE.seq (RE.many isDotChar) (RE.seq (RE.cls (· = '|'))
      (RE.seq (RE.many isSpaceChar) (RE.alt (litCI "bash") (litCI "sh"))))))

/-- Regex `wget\s+.*\|\s*(bash|sh)` (case-insensitive). -/
def reWgetPipe : RE :=
  RE.seq (litCI "wget") (RE.seq (many1 isSpaceChar)
    (RE.seq (RE.many isDotChar) (RE.seq (RE.cls (· = '|'))
      (RE.seq (RE.many isSpaceChar) (RE.alt (litCI "bash") (litCI "sh"))))))

/-- The `BLOCKED_PATTERNS` table of the validator, in source order.  Each
pair holds the test of a pattern on the trimmed command and its reason. -/
def BLOCKED_PATTERNS : List ((List Char → Bool) × String) :=
  [ (fun l => (matchRE dockerStartRE none l).isEmpty, "Command must start with 'docker'"),
    (fun l => reTest reShC l, "Shell invocation not allowed"),
    (fun l => reTest reBashC l, "Shell invocation not allowed"),
    (fun l => reTest (RE.cls (· = '|')) l, "Pipes not allowed"),
    (fun l => reTest (RE.cls (· = '>')) l, "Output redirection not allowed"),
    (fun l => reTest (RE.cls (· = '<')) l, "Input redirection not allowed"),
    (fun l => reTest (lit "$(") l, "Command substitution not allowed"),
    (fun l => reTest (RE.cls (· = backquoteChar)) l, "Backtick substitution not allowed"),
    (fun l => reTest (lit "&&") l, "Command chaining (&&) not allowed"),
    (fun l => reTest (lit "||") l, "Command chaining (||) not allowed"),
    (fun l => reTest (RE.cls (· = ';')) l, "Command chaining (;) not allowed"),
    (fun l => reTest reVarAssign l, "Variable assignment not allowed"),
    (fun l => reTest (RE.cls (· = '(')) l, "Subshell not allowed"),
    (fun l => reTest (RE.cls (· = ')')) l, "Subshell not allowed"),
    (fun l => reTest reRmRf l, "Destructive rm pattern blocked"),
    (fun l => reTest reRmRfStar l, "Destructive rm pattern blocked"),
    (fun l => reTest reDdIf l, "Destructive dd pattern blocked"),
    (fun l => reTest reMkfs l, "Filesystem formatting blocked"),
    (fun l => reTest reDevSd l, "Direct disk write blocked"),
    (fun l => reTest reCurlPipe l, "Remote code execution blocked"),
    (fun l => reTest reWgetPipe l, "Remote code execution blocked") ]

/-- First blocked pattern matching the trimmed command, if any (the source
loops over `BLOCKED_PATTERNS` and throws at the first match). -/
def firstBlocked (l : List Char) : Option String :=
  (BLOCKED_PATTERNS.find? fun pr => pr.1 l).map (·.2)

/-- Word-boundary match of a container name against the trimmed command
(`new RegExp` of `\b` + `escapeRegex(name)` + `\b`; `escapeRegex` makes the
name a literal). -/
def containerMatches (name : String) (l : List Char) : Bool :=
  reTest (RE.seq RE.bound (RE.seq (lit name) RE.bound)) l

/-- Source `findTargetContainer`: fold over the known containers keeping
the last match and a match count; the target is the match iff the count is
exactly one. -/
def findTargetContainer (l : List Char) (known : List String) : Option String :=
  let r := known.foldl
    (fun (acc : Option String × Nat) name =>
      if containerMatches name l then (some name, acc.2 + 1) else acc)
    (none, 0)
  if r.2 = 1 then r.1 else none

/-- A `CommandValidationError` (command and reason), as thrown by the
source validator. -/
structure ValidationError where
  command : String
  reason : String
deriving DecidableEq, Repr

/-- Source `validateCommand`: `none` means the command is accepted,
`some e` models throwing `CommandValidationError e`. -/
def validateCommand (command : String) (known : List String) : Option ValidationError :=
  let trimmed := jsTrim command.toList
  if trimmed.isEmpty then some ⟨command, "Empty command not allowed"⟩
  else
    match firstBlocked trimmed with
    | some reason => some ⟨command, reason⟩
    | none =>
      match findTargetContainer trimmed known with
      | some _ => none
      | none =>
        let matched := known.filter fun c => containerMatches c trimmed
        if matched.isEmpty then
          some ⟨command, "Command does not reference any known container"⟩
        else
          some ⟨command,
            "Command references multiple containers: " ++ String.intercalate ", " matched⟩

/-- Insertion-order deduplication, as performed by `new Set(...)` followed
by iteration in the source. -/
def setOrder (l : List String) : List String :=
  l.foldl (fun acc x => if acc.contains x then acc else acc ++ [x]) []

/-- A plan step (`{action, reason}` in src/types.ts). -/
structure PlanStep where
  action : String
  reason : String
deriving DecidableEq, Repr

instance : Inhabited PlanStep := ⟨⟨"", ""⟩⟩

/-- Source `assertCommandsValid`: validate every step against the known
containers (made into a set), stopping at the first failing command. -/
def assertCommandsValid (steps : List PlanStep) (known : List String) : Option ValidationError :=
  let containerSet := setOrder known
  steps.findSome? fun st => validateCommand st.action containerSet

/-! ## Command executor (src/execution/executor.ts)

`execCmd` performs IO; it is modelled by an oracle giving, for each
invocation index and command string, the raw outcome the runtime returns
(exit code, optional terminating signal, stdout, stderr).  A second oracle
supplies the ISO timestamps taken at each step. -/

/-- Status of a single executed step. -/
inductive StepStatus where
  | success
  | failure
deriving DecidableEq, Repr

/-- A `StepResult` from src/types.ts. -/
structure StepResult where
  step : String
  status : StepStatus
  exitCode : Int
  stdout : String
  stderr : String
  timestamp : String
deriving DecidableEq, Repr

instance : Inhabited StepResult :=
  ⟨⟨"", StepStatus.failure, 0, "", "", ""⟩⟩

/-- An `ExecutionResult` from src/types.ts; `failedAtStep = -1` means all
steps succeeded. -/
structure ExecutionResult where
  results : List StepResult
  failedAtStep : Int
deriving DecidableEq, Repr

/-- Raw outcome of one `exec` call, before `execCmd` derives the success
flag. -/
structure RawExecOutcome where
  exitCode : Int
  signal : Option String
  stdout : String
  stderr : String
deriving DecidableEq, Repr

/-- Oracle for the runtime: outcome of the `i`-th executed command. -/
abbrev ExecEnv : Type := Nat → String → RawExecOutcome

/-- Oracle for `new Date().toISOString()` at the `i`-th step. -/
abbrev Clock : Type := Nat → String

/-- Source `execCmd` success flag: `exitCode === 0 && !signal`. -/
def cmdSuccess (o : RawExecOutcome) : Bool :=
  o.exitCode = 0 && o.signal.isNone

/-- Loop body of `executeCommands`, carrying the absolute step index. -/
def executeCommandsAux (env : ExecEnv) (clock : Clock) : Nat → List String → List StepResult × Int
  | _, [] => ([], -1)
  | i, cmd :: rest =>
    let o := env i cmd
    let r : StepResult :=
      ⟨cmd, if cmdSuccess o then StepStatus.success else StepStatus.failure,
        o.exitCode, o.stdout, o.stderr, clock i⟩
    if cmdSuccess o then
      let p := executeCommandsAux env clock (i + 1) rest
      (r :: p.1, p.2)
    else
      ([r], Int.ofNat i)

/-- Source `executeCommands`: run the commands in order, stop at the first
failure. -/
def executeCommands (env : ExecEnv) (clock : Clock) (steps : List String) : ExecutionResult :=
  let p := executeCommandsAux env clock 0 steps
  ⟨p.1, p.2⟩

/-! ## Domain data model (src/types.ts, src/orchestration/state.ts) -/

/-- A node of the incident graph. -/
structure IncidentNode where
  container : String
  type : String
  evidence : List String
  timestamp : String
deriving DecidableEq, Repr

/-- A causal edge of the incident graph; `fromIdx`/`toIdx` model the
source fields `from`/`to` (array indices). -/
structure CausalLink where
  fromIdx : Int
  toIdx : Int
deriving DecidableEq, Repr

/-- The incident graph. -/
structure IncidentGraph where
  nodes : List IncidentNode
  edges : List CausalLink
  root : Option Int
  summary : String
deriving DecidableEq, Repr

/-- A feasibility assessment. -/
structure FeasibilityAssessment where
  feasible : Bool
  summary : String
  blocking_reason : Option String
deriving DecidableEq, Repr

/-- A remediation plan: ordered steps and ordered verification commands. -/
structure RemediationPlan where
  summary : String
  steps : List PlanStep
  verification : List PlanStep
deriving DecidableEq, Repr

/-- The discriminants of `FailureContext.type`. -/
inductive FailureType where
  | remediation_command_rejected
  | verification_command_rejected
  | execution_failed
  | verification_failed
  | user_rejected
deriving DecidableEq, Repr

/-- The cross-capability failure back-channel. -/
structure FailureContext where
  type : FailureType
  step : Option String
  reason : Option String
  output : Option String
deriving DecidableEq, Repr

/-- Terminal status of the resolution process. -/
inductive Resolution where
  | pending
  | resolved
  | observed
  | dismissed
deriving DecidableEq, Repr

/-- Models a `Content` value of the external @google/genai library: the
engine only stores and forwards these, never inspects them, so a carrier
with a role and a text payload is sufficient. -/
structure Content where
  role : String
  text : String
deriving DecidableEq, Repr

/-- The `IncidentResolutionState` record (src/orchestration/state.ts). -/
structure IncidentResolutionState where
  logs : Option (List String)
  incidentGraph : Option IncidentGraph
  feasibility : Option FeasibilityAssessment
  plan : Option RemediationPlan
  executionResult : Option ExecutionResult
  verificationResult : Option ExecutionResult
  failureContext : Option FailureContext
  plannerHistory : List Content
  planValidated : Bool
  resolution : Resolution
deriving DecidableEq, Repr

/-- Source `createInitialState`. -/
def createInitialState (logs : List String) : IncidentResolutionState :=
  ⟨some logs, none, none, none, none, none, none, [], false, Resolution.pending⟩

/-- The result record every capability returns
(src/capabilities/types.ts).  The optional `idle?` flag is modelled with
default `false`. -/
structure CapabilityResult (α : Type) where
  success : Bool
  state : IncidentResolutionState
  data : Option α
  error : Option String
  idle : Bool
deriving DecidableEq, Repr

/-- Source helper `success(state, data?)`. -/
def capSuccess {α : Type} (state : IncidentResolutionState) (data : Option α) : CapabilityResult α :=
  ⟨true, state, data, none, false⟩

/-- Source helper `failure(state, error)`. -/
def capFailure {α : Type} (state : IncidentResolutionState) (error : String) : CapabilityResult α :=
  ⟨false, state, none, some error, false⟩

/-! ## validatePlan (src/capabilities/verifyPlan/capability.ts, second
module)

The source reads the known containers from the global
`infrastructure.containers`; here they are an explicit parameter. -/

/-- Data payload of a successful validation. -/
structure ValidationData where
  valid : Bool
  checkedSteps : Nat
  checkedVerification : Nat
deriving DecidableEq, Repr

/-- Source `validatePlan`.  `assertCommandsValid` is applied to
`plan.steps` and then to `plan.verification`; a thrown
`CommandValidationError` is caught in one shared handler which tags the
failure by membership of the offending command in `plan.verification`. -/
def validatePlan (knownContainers : List String) (state : IncidentResolutionState) :
    CapabilityResult ValidationData :=
  match state.plan with
  | none => capFailure state "Cannot validate: no plan exists."
  | some plan =>
    if state.planValidated then
      capFailure state "Plan is already validated."
    else
      let caught := fun (err : ValidationError) =>
        let isVerificationCommand := plan.verification.any fun v => v.action = err.command
        let fc : FailureContext :=
          ⟨if isVerificationCommand then FailureType.verification_command_rejected
            else FailureType.remediation_command_rejected,
           some err.command, some err.reason, none⟩
        capFailure (α := ValidationData) { state with failureContext := some fc }
          ("Validation failed: " ++ err.reason ++ " (command: " ++ err.command ++ ")")
      match assertCommandsValid plan.steps knownContainers with
      | some err => caught err
      | none =>
        match assertCommandsValid plan.verification knownContainers with
        | some err => caught err
        | none =>
          capSuccess { state with planValidated := true }
            (some ⟨true, plan.steps.length, plan.verification.length⟩)

/-! ## verifyPlan (src/capabilities/verifyPlan/capability.ts, first
module) -/

/-- Data payload of a verification run. -/
structure VerificationData where
  verificationResult : ExecutionResult
  verified : Bool
deriving DecidableEq, Repr

/-- JavaScript `a || b` on strings (empty string is falsy). -/
def jsOr (a b : String) : String :=
  if a = "" then b else a

/-- Source `verifyPlan`.  Command execution is performed through the
`env`/`clock` oracles. -/
def verifyPlan (env : ExecEnv) (clock : Clock) (state : IncidentResolutionState) :
    CapabilityResult VerificationData :=
  match state.plan with
  | none => capFailure state "Cannot verify: no plan exists."
  | some plan =>
    match state.executionResult with
    | none => capFailure state "Cannot verify: execution has not been performed."
    | some er =>
      if er.failedAtStep ≠ -1 then
        capFailure state "Cannot verify: execution failed. Replanning required."
      else if plan.verification.length = 0 then
        let emptyResult : ExecutionResult := ⟨[], -1⟩
        capSuccess { state with verificationResult := some emptyResult,
                                resolution := Resolution.resolved }
          (some ⟨emptyResult, true⟩)
      else
        let result := executeCommands env clock (plan.verification.map (·.action))
        let verified := result.failedAtStep = -1
        if verified then
          capSuccess { state with verificationResult := some result,
                                  resolution := Resolution.resolved }
            (some ⟨result, true⟩)
        else
          let failedStepResult := result.results.getD result.failedAtStep.toNat default
          let failedStepAction := ((plan.verification.getD result.failedAtStep.toNat default).action)
          let output := jsOr failedStepResult.stderr failedStepResult.stdout
          let stepNum := toString (result.failedAtStep + 1)
          capFailure
            { state with verificationResult := some result,
                         failureContext := some
                           ⟨FailureType.verification_failed, some failedStepAction,
                            some ("Verification failed at step " ++ stepNum), some output⟩ }
            ("Verification failed at step " ++ stepNum ++ ": " ++ jsOr output failedStepAction)

/-! ## planRemediation (src/capabilities/planRemediation/capability.ts)

`runAgent` calls the external reasoner; it is modelled by an oracle from
the current state to either a thrown error message or the produced plan
together with the updated planner conversation history. -/

/-- Oracle for `runAgent` in the planner. -/
abbrev PlannerAgent : Type :=
  IncidentResolutionState → Except String (RemediationPlan × List Content)

/-- Data payload of a successful planning call. -/
structure PlanRemediationData where
  plan : RemediationPlan
deriving DecidableEq, Repr

/-- JavaScript template interpolation of an optional string (`null`
prints as "null"). -/
def jsShowOpt (o : Option String) : String :=
  match o with
  | some s => s
  | none => "null"

/-- Source `planRemediation`. -/
def planRemediation (agent : PlannerAgent) (state : IncidentResolutionState) :
    CapabilityResult PlanRemediationData :=
  match state.incidentGraph with
  | none => capFailure state "Cannot plan: no incident identified."
  | some graph =>
    if graph.nodes.isEmpty then
      capFailure state "Cannot plan: no incident identified."
    else
      match state.feasibility with
      | none => capFailure state "Cannot plan: feasibility not assessed."
      | some f =>
        if !f.feasible then
          capFailure state
            ("Cannot plan: not feasible. Reason: " ++ jsShowOpt f.blocking_reason)
        else if state.plan.isSome && state.failureContext.isNone then
          capFailure state "Plan already exists without failure context."
        else
          match graph.root with
          | none => capFailure state "Cannot plan: no root cause specified in graph."
          | some rootIdx =>
            if rootIdx < 0 || rootIdx ≥ graph.nodes.length then
              capFailure state "Cannot plan: root cause index out of bounds."
            else
              match agent state with
              | Except.error e => capFailure state ("Planning failed: " ++ e)
              | Except.ok (newPlan, newHistory) =>
                capSuccess
                  { state with plan := some newPlan,
                               plannerHistory := newHistory,
                               planValidated := false,
                               executionResult := none,
                               verificationResult := none,
                               failureContext := none }
                  (some ⟨newPlan⟩)

/-! ## Log filter (src/observation/logBuffer.ts) -/

/-- Which stream a log event came from. -/
inductive StreamKind where
  | stdout
  | stderr
deriving DecidableEq, Repr

/-- A `LogEvent` (src/observation/observeContainerLogs.ts). -/
structure LogEvent where
  container : String
  message : String
  stream : StreamKind
  timestamp : Nat
deriving DecidableEq, Repr

/-- The `LIFECYCLE_KEYWORDS` table, in source order. -/
def LIFECYCLE_KEYWORDS : List String :=
  [ "sigterm", "sigint", "sighup", "signal-handler", "received signal",
    "scheduling shutdown",
    "shutdown", "shutting down", "stopping", "stopped", "exiting", "bye bye",
    "graceful", "gracefully", "ready to exit",
    "starting", "started", "ready", "listening", "accepting connections",
    "server started", "initialized",
    "health check", "healthcheck", "keepalive", "heartbeat" ]

/-- The `ERROR_KEYWORDS` table, in source order. -/
def ERROR_KEYWORDS : List String :=
  [ "error", "exception", "fatal", "critical", "panic", "crash", "crashed",
    "fail", "failed", "failure", "econnrefused", "timeout", "timedout",
    "timed out", "refused", "denied", "forbidden", "unavailable",
    "unreachable", "disconnected", "cannot connect", "unable to connect",
    "connection lost", "oom", "out of memory", "memory allocation",
    "disk full", "no space left", "resource exhausted", "oomkilled",
    "oom killed", "aborted", "segfault", "core dumped", "deadlock",
    "constraint", "duplicate key", "syntax error", "connection pool",
    "nosuchbucket", "access denied", "invalid credentials", "throttling",
    "cannot", "unable", "could not", "invalid", "missing", "not found" ]

/-- Regex `\bHTTP[\/\s]\d\.\d\b.+?\b[45]\d{2}\b`. -/
def reHttpStatus : RE :=
  RE.seq RE.bound (RE.seq (lit "HTTP")
    (RE.seq (RE.cls fun c => c = '/' || isSpaceChar c)
      (RE.seq (RE.cls Char.isDigit) (RE.seq (RE.cls (· = '.'))
        (RE.seq (RE.cls Char.isDigit) (RE.seq RE.bound
          (RE.seq (many1 isDotChar) (RE.seq RE.bound
            (RE.seq (RE.cls fun c => c = '4' || c = '5')
              (RE.seq (RE.cls Char.isDigit)
                (RE.seq (RE.cls Char.isDigit) RE.bound)))))))))))

/-- Regex `(?:status[_\-\s]?(?:code)?[\s:=]+)[45]\d{2}\b` (case-insensitive). -/
def reStatusCode : RE :=
  RE.seq (litCI "status")
    (RE.seq (opt (RE.cls fun c => c = '_' || c = '-' || isSpaceChar c))
      (RE.seq (opt (litCI "code"))
        (RE.seq (many1 fun c => isSpaceChar c || c = ':' || c = '=')
          (RE.seq (RE.cls fun c => c = '4' || c = '5')
            (RE.seq (RE.cls Char.isDigit)
              (RE.seq (RE.cls Char.isDigit) RE.bound))))))

/-- Regex `"(?:status|code|statusCode|status_code)"\s*:\s*[45]\d{2}\b`. -/
def reJsonStatus : RE :=
  RE.seq (RE.cls (· = '"'))
    (RE.seq (alts [lit "status", lit "code", lit "statusCode", lit "status_code"])
      (RE.seq (RE.cls (· = '"'))
        (RE.seq (RE.many isSpaceChar) (RE.seq (RE.cls (· = ':'))
          (RE.seq (RE.many isSpaceChar)
            (RE.seq (RE.cls fun c => c = '4' || c = '5')
              (RE.seq (RE.cls Char.isDigit)
                (RE.seq (RE.cls Char.isDigit) RE.bound))))))))

/-- Regex `\b[45]\d{2}\s+(?:Bad Request|...|Gateway Timeout)\b`. -/
def reStatusPhrase : RE :=
  RE.seq RE.bound
    (RE.seq (RE.cls fun c => c = '4' || c = '5')
      (RE.seq (RE.cls Char.isDigit) (RE.seq (RE.cls Char.isDigit)
        (RE.seq (many1 isSpaceChar)
          (RE.seq (alts [lit "Bad Request", lit "Unauthorized", lit "Forbidden",
                         lit "Not Found", lit "Method Not Allowed", lit "Conflict",
                         lit "Gone", lit "Too Many Requests",
                         lit "Internal Server Error", lit "Bad Gateway",
                         lit "Service Unavailable", lit "Gateway Timeout"])
            RE.bound)))))

/-- Alternation `error|fatal|critical|panic`, case-insensitive. -/
def levelAlt : RE :=
  alts [litCI "error", litCI "fatal", litCI "critical", litCI "panic"]

/-- Regex `"level"\s*:\s*"(error|fatal|critical|panic)"` (case-insensitive). -/
def reJsonLevel : RE :=
  RE.seq (litCI "\"level\"")
    (RE.seq (RE.many isSpaceChar) (RE.seq (RE.cls (· = ':'))
      (RE.seq (RE.many isSpaceChar)
        (RE.seq (RE.cls (· = '"')) (RE.seq levelAlt (RE.cls (· = '"')))))))

/-- Regex `level=(error|fatal|critical|panic)` (case-insensitive). -/
def reEqLevel : RE :=
  RE.seq (litCI "level=") levelAlt

/-- Regex `\[(error|fatal|critical|panic)\]` (case-insensitive). -/
def reBracketLevel : RE :=
  RE.seq (RE.cls (· = '[')) (RE.seq levelAlt (RE.cls (· = ']')))

/-- Regex `ERROR|FATAL|CRITICAL|SEVERE` (case-sensitive). -/
def reUpperLevel : RE :=
  alts [lit "ERROR", lit "FATAL", lit "CRITICAL", lit "SEVERE"]

/-- The `ERROR_PATTERNS` table, in source order. -/
def ERROR_PATTERNS : List RE :=
  [ reHttpStatus, reStatusCode, reJsonStatus, reStatusPhrase,
    reJsonLevel, reEqLevel, reBracketLevel, reUpperLevel ]

/-- Does the second list occur as a leading segment of the first? -/
def listStartsWith : List Char → List Char → Bool
  | _, [] => true
  | [], _ :: _ => false
  | c :: cs, d :: ds => c = d && listStartsWith cs ds

/-- JS `String.prototype.includes` on character lists: does `sub` occur
contiguously inside `l`? -/
def containsSub : List Char → List Char → Bool
  | [], sub => sub.isEmpty
  | c :: cs, sub => listStartsWith (c :: cs) sub || containsSub cs sub

/-- Source `isLifecycleEvent`: the lower-cased message contains some
lifecycle keyword. -/
def isLifecycleEvent (msg : String) : Bool :=
  LIFECYCLE_KEYWORDS.any fun keyword =>
    containsSub (lowerStr msg.toList) keyword.toList

/-- Source `hasErrorIndicator`: the lower-cased message contains an error
keyword, or the raw message matches an error pattern. -/
def hasErrorIndicator (event : LogEvent) : Bool :=
  (ERROR_KEYWORDS.any fun keyword =>
    containsSub (lowerStr event.message.toList) keyword.toList) ||
  (ERROR_PATTERNS.any fun r => reTest r event.message.toList)

/-- Source `shouldInclude`. -/
def shouldInclude (event : LogEvent) : Bool :=
  if isLifecycleEvent event.message then false
  else if event.stream = StreamKind.stderr then true
  else hasErrorIndicator event

/-! ## Log batcher (src/observation/logBuffer.ts, `startMonitoring`)

The batcher is single-threaded JavaScript: the buffer, the single pending
timer and the `isProcessing` flag evolve under three kinds of events — a
log event arriving, the pending timer firing, and the in-flight batch
callback completing (`flush`'s `finally` block).  The state machine below
makes those synchronous segments explicit.  `timerDelay` holds the delay of
the pending `setTimeout`; a fired or cleared timer is `none` (the
unreachable case where the stale variable outlives a fired timer is not
distinguished). -/

/-- The buffer-cap constant `MAX_BUFFER_SIZE`. -/
def MAX_BUFFER_SIZE : Nat := 100

/-- A `LogBatch` delivered to the consumer. -/
structure LogBatch where
  logs : List String
  containers : List String
  triggeredAt : Nat
deriving DecidableEq, Repr

/-- Mutable state captured by the `startMonitoring` closure. -/
structure BatcherState where
  buffer : List LogEvent
  timerDelay : Option Nat
  isProcessing : Bool
deriving DecidableEq, Repr

/-- Initial closure state: empty buffer, no timer, not processing. -/
def initialBatcherState : BatcherState :=
  ⟨[], none, false⟩

/-- What caused a batch emission: the backpressure cap (the immediate
flush in `handleLogEvent`, or a zero-delay timer scheduled because the
buffer had already hit the cap) or the debounce window elapsing. -/
inductive FlushTrigger where
  | cap
  | debounce
deriving DecidableEq, Repr

/-- Events driving the batcher. -/
inductive BatcherAction where
  | logEvent (e : LogEvent)
  | timerFires
  | batchDone
  | stopCalled
deriving Repr

/-- Source `flush()` up to its `await`: emit the batch, clear the buffer
and the timer, raise `isProcessing` — or do nothing when the buffer is
empty or a batch is already in flight. -/
def flushFn (now : Nat) (st : BatcherState) : BatcherState × Option LogBatch :=
  if st.buffer.isEmpty || st.isProcessing then (st, none)
  else
    (⟨[], none, true⟩,
     some ⟨st.buffer.map fun e => "[" ++ e.container ++ "] " ++ e.message,
           setOrder (st.buffer.map (·.container)),
           now⟩)

/-- One transition of the batcher. `windowMs` is the debounce window,
`now` models `Date.now()` during this segment. -/
def batcherStep (windowMs : Nat) (now : Nat) (st : BatcherState) :
    BatcherAction → BatcherState × Option (LogBatch × FlushTrigger)
  | BatcherAction.logEvent e =>
    if !shouldInclude e then (st, none)
    else
      let st1 : BatcherState := { st with buffer := st.buffer ++ [e] }
      if st1.buffer.length ≥ MAX_BUFFER_SIZE && !st1.isProcessing then
        let p := flushFn now { st1 with timerDelay := none }
        (p.1, p.2.map fun b => (b, FlushTrigger.cap))
      else if !st1.isProcessing then
        ({ st1 with timerDelay := some windowMs }, none)
      else
        (st1, none)
  | BatcherAction.timerFires =>
    match st.timerDelay with
    | none => (st, none)
    | some d =>
      let p := flushFn now { st with timerDelay := none }
      (p.1, p.2.map fun b =>
        (b, if d = 0 then FlushTrigger.cap else FlushTrigger.debounce))
  | BatcherAction.batchDone =>
    if !st.isProcessing then (st, none)
    else
      let st1 : BatcherState := { st with isProcessing := false }
      let nextDelay : Nat := if st1.buffer.length ≥ MAX_BUFFER_SIZE then 0 else windowMs
      if st1.buffer.length > 0 && st1.timerDelay.isNone then
        ({ st1 with timerDelay := some nextDelay }, none)
      else
        (st1, none)
  | BatcherAction.stopCalled =>
    ({ st with timerDelay := none }, none)

/-- Run the batcher over a trace of timed actions, collecting the
emitted batches with their triggers. -/
def batcherRun (windowMs : Nat) (st : BatcherState) :
    List (Nat × BatcherAction) → BatcherState × List (LogBatch × FlushTrigger)
  | [] => (st, [])
  | (now, act) :: rest =>
    let p := batcherStep windowMs now st act
    let q := batcherRun windowMs p.1 rest
    (q.1, (p.2.map (fun b => [b])).getD [] ++ q.2)

/-! ## Orchestrator loop (src/orchestration/workflow.ts)

One iteration of the `while (state.resolution === "pending")` loop is a
function of the current state and context together with this iteration's
environment input: the reasoner's reply, the human's answers, and the
outcome of the dispatched capability handler.  Handlers are black boxes to
the loop (the loop only reads `success`, `state`, `error` and `idle` from
their result), so the input carries the handler outcome directly;
quantifying over all inputs covers every behaviour of the real handlers.
The knowledge store (`addFact`) is modelled as a fact list in the
context. -/

/-- The closed set of capability names (src/orchestration/registry.ts). -/
inductive CapabilityName where
  | analyzeIncident
  | assessFeasibility
  | planRemediation
  | validatePlan
  | requestApproval
  | executePlan
  | verifyPlan
  | escalate
  | reportFindings
deriving DecidableEq, Repr

/-- An entry of the audit history. -/
structure HistoryEntry where
  timestamp : String
  capability : String
  success : Bool
  summary : String
deriving DecidableEq, Repr

/-- The `OrchestrationContext` (src/orchestration/state.ts) plus the
knowledge-store facts appended through `addFact`. -/
structure OrchestrationContext where
  attemptCount : Nat
  maxAttempts : Nat
  history : List HistoryEntry
  orchestratorConversationHistory : List Content
  facts : List (String × String)
deriving DecidableEq, Repr

/-- Source `createInitialContext` (with an empty fact log). -/
def createInitialContext (maxAttempts : Nat) : OrchestrationContext :=
  ⟨0, maxAttempts, [], [], []⟩

/-- The reasoner's reply for one iteration: a transport / parse error
(everything the surrounding `try` catches while talking to the model), a
reply without any tool call, or a capability selection.  `escReason` and
`escContext` model the arguments of an `escalate` call. -/
inductive ReasonerOutcome where
  | transportError (msg : String)
  | noToolCall
  | call (name : CapabilityName) (escReason escContext : String)
deriving Repr

/-- The human's answer to an escalation prompt. -/
inductive EscalationChoice where
  | dismiss
  | provideContext (context : String)
deriving Repr

/-- The human's answer to a plan-approval prompt. -/
inductive ApprovalChoice where
  | approve
  | reject (feedback : String)
deriving Repr

/-- A capability result as the loop sees it (data erased — the loop never
reads it). -/
structure LoopCapabilityResult where
  success : Bool
  state : IncidentResolutionState
  error : Option String
  idle : Bool
deriving DecidableEq, Repr

/-- Outcome of awaiting `capability.handler(state)`: a result, or a
thrown exception (caught by the loop's `catch`). -/
inductive HandlerOutcome where
  | ok (r : LoopCapabilityResult)
  | thrown (msg : String)
deriving Repr

/-- Environment input consumed by one loop iteration. -/
structure LoopInput where
  reasoner : ReasonerOutcome
  escalation : EscalationChoice
  approval : ApprovalChoice
  handler : HandlerOutcome
  now : String
deriving Repr

/-- What one iteration did, as visible from outside. -/
inductive IterationEvent where
  | circuitDismiss
  | circuitReset (context : String)
  | reasonerErrored
  | reasonerNoCall
  | inlineEscalateDismiss
  | inlineEscalateContinue (context : String)
  | approvalApproved
  | approvalRejected (feedback : String)
  | handlerThrew
  | dispatched (name : CapabilityName) (replan : Bool) (wentIdle : Bool)
deriving DecidableEq, Repr

/-- Result of one loop iteration. -/
structure StepOut where
  state : IncidentResolutionState
  ctx : OrchestrationContext
  event : IterationEvent
  halted : Bool
deriving Repr

/-- Registry name string of a capability (for audit entries). -/
def capabilityNameString : CapabilityName → String
  | CapabilityName.analyzeIncident => "analyzeIncident"
  | CapabilityName.assessFeasibility => "assessFeasibility"
  | CapabilityName.planRemediation => "planRemediation"
  | CapabilityName.validatePlan => "validatePlan"
  | CapabilityName.requestApproval => "requestApproval"
  | CapabilityName.executePlan => "executePlan"
  | CapabilityName.verifyPlan => "verifyPlan"
  | CapabilityName.escalate => "escalate"
  | CapabilityName.reportFindings => "reportFindings"

/-- Append a user-role message to the orchestrator conversation. -/
def pushUser (ctx : OrchestrationContext) (text : String) : OrchestrationContext :=
  { ctx with orchestratorConversationHistory :=
      ctx.orchestratorConversationHistory ++ [⟨"user", text⟩] }

/-- Append a model-role message to the orchestrator conversation. -/
def pushModel (ctx : OrchestrationContext) (text : String) : OrchestrationContext :=
  { ctx with orchestratorConversationHistory :=
      ctx.orchestratorConversationHistory ++ [⟨"model", text⟩] }

/-- Append an audit entry. -/
def pushHistory (ctx : OrchestrationContext) (e : HistoryEntry) : OrchestrationContext :=
  { ctx with history := ctx.history ++ [e] }

/-- Append a knowledge-store fact (`addFact`). -/
def pushFact (ctx : OrchestrationContext) (question answer : String) : OrchestrationContext :=
  { ctx with facts := ctx.facts ++ [(question, answer)] }

/-- One iteration of `runOrchestrator`'s loop body, for a state whose
resolution is still `pending`. -/
def orchStep (inp : LoopInput) (state : IncidentResolutionState)
    (ctx : OrchestrationContext) : StepOut :=
  if ctx.attemptCount ≥ ctx.maxAttempts then
    -- Circuit breaker: escalate inline before any capability dispatch.
    match inp.escalation with
    | EscalationChoice.dismiss =>
      ⟨{ state with resolution := Resolution.dismissed }, ctx,
        IterationEvent.circuitDismiss, false⟩
    | EscalationChoice.provideContext c =>
      let ctx1 := pushFact ctx "User context after max attempts reached" c
      let ctx2 := { ctx1 with attemptCount := 0 }
      let ctx3 := pushUser ctx2
        ("User provided additional context after max attempts: " ++ c ++
          ". Attempt counter has been reset. Continue resolving the incident with this new information.")
      ⟨state, ctx3, IterationEvent.circuitReset c, false⟩
  else
    let ctxS := pushUser ctx "Current State: (serialised state)"
    match inp.reasoner with
    | ReasonerOutcome.transportError m =>
      -- The loop's catch block: log, nudge the reasoner, continue.
      let ctxE := pushUser ctxS ("Error occurred: " ++ m ++ ". Please select a capability to continue.")
      ⟨state, ctxE, IterationEvent.reasonerErrored, false⟩
    | ReasonerOutcome.noToolCall =>
      let ctxM := pushModel ctxS "(model turn)"
      let ctxN := pushUser ctxM "You must select a capability to invoke. Choose one of the available tools."
      ⟨state, ctxN, IterationEvent.reasonerNoCall, false⟩
    | ReasonerOutcome.call name escReason _escContext =>
      -- The second escalate argument (`needed_context`) is only displayed
      -- to the human by `resolveEscalation`; the loop state ignores it.
      let ctxM := pushModel ctxS "(model turn)"
      if name = CapabilityName.escalate then
        match inp.escalation with
        | EscalationChoice.dismiss =>
          let ctxH := pushHistory ctxM ⟨inp.now, "escalate", true, "User dismissed the incident"⟩
          let ctxR := pushUser ctxH "(escalate function response: dismissed)"
          ⟨{ state with resolution := Resolution.dismissed }, ctxR,
            IterationEvent.inlineEscalateDismiss, false⟩
        | EscalationChoice.provideContext c =>
          let ctxF := pushFact ctxM escReason c
          let resetFeasibility :=
            match state.feasibility with
            | some f => !f.feasible
            | none => false
          let state1 :=
            { state with feasibility := if resetFeasibility then none else state.feasibility,
                         failureContext := none }
          let ctxH := pushHistory ctxF ⟨inp.now, "escalate", true, "User provided context: " ++ c⟩
          let ctxR := pushUser ctxH "(escalate function response: continue)"
          ⟨state1, ctxR, IterationEvent.inlineEscalateContinue c, false⟩
      else if name = CapabilityName.requestApproval then
        match inp.approval with
        | ApprovalChoice.approve =>
          let ctxH := pushHistory ctxM ⟨inp.now, "requestApproval", true, "User approved the plan"⟩
          let ctxR := pushUser ctxH "(requestApproval function response: approved)"
          ⟨state, ctxR, IterationEvent.approvalApproved, false⟩
        | ApprovalChoice.reject feedback =>
          let state1 :=
            { state with failureContext := some
                           ⟨FailureType.user_rejected, none, some feedback, none⟩,
                         planValidated := false,
                         executionResult := none,
                         verificationResult := none }
          let ctxH := pushHistory ctxM ⟨inp.now, "requestApproval", false, "User rejected: " ++ feedback⟩
          let ctxR := pushUser ctxH "(requestApproval function response: rejected)"
          ⟨state1, ctxR, IterationEvent.approvalRejected feedback, false⟩
      else
        -- Generic path: dispatch the capability handler.
        let hadFailureContext := state.failureContext.isSome
        match inp.handler with
        | HandlerOutcome.thrown m =>
          let ctxE := pushUser ctxM ("Error occurred: " ++ m ++ ". Please select a capability to continue.")
          ⟨state, ctxE, IterationEvent.handlerThrew, false⟩
        | HandlerOutcome.ok r =>
          if r.idle then
            ⟨r.state, ctxM, IterationEvent.dispatched name false true, true⟩
          else
            let summary :=
              if r.success then "Completed successfully"
              else (r.error.getD "Unknown error")
            let ctxH := pushHistory ctxM ⟨inp.now, capabilityNameString name, r.success, summary⟩
            let ctxR := pushUser ctxH "(function response)"
            let isReplan := name = CapabilityName.planRemediation && hadFailureContext
            let ctxA :=
              if isReplan then { ctxR with attemptCount := ctxR.attemptCount + 1 } else ctxR
            ⟨r.state, ctxA, IterationEvent.dispatched name isReplan false, false⟩

/-- Run the loop over a trace of environment inputs: stop when the
resolution leaves `pending` (the `while` guard), when an iteration
returns (the idle path), or when the input trace is exhausted. -/
def orchRun : List LoopInput → IncidentResolutionState → OrchestrationContext →
    (IncidentResolutionState × OrchestrationContext) × List IterationEvent
  | [], state, ctx => ((state, ctx), [])
  | inp :: rest, state, ctx =>
    if state.resolution ≠ Resolution.pending then ((state, ctx), [])
    else
      let out := orchStep inp state ctx
      if out.halted then ((out.state, out.ctx), [out.event])
      else
        let q := orchRun rest out.state out.ctx
        (q.1, out.event :: q.2)

/-! ## Derived notions used by the stated properties -/

/-- Did this iteration increment the attempt counter (a genuine replan)? -/
def isReplanEvent : IterationEvent → Bool
  | IterationEvent.dispatched _ replan _ => replan
  | _ => false

/-- Did this iteration reset the attempt counter with user-provided
context (the circuit breaker's continue path)? -/
def isContextInjection : IterationEvent → Bool
  | IterationEvent.circuitReset _ => true
  | _ => false

/-- The capability dispatched by an iteration, if any (inline escalation
and approval handling dispatch no capability handler). -/
def dispatchedName : IterationEvent → Option CapabilityName
  | IterationEvent.dispatched n _ _ => some n
  | _ => none

/-- Effect of one iteration event on the attempt counter. -/
def applyEvent (c : Nat) (e : IterationEvent) : Nat :=
  if isContextInjection e then 0
  else if isReplanEvent e then c + 1
  else c

/-- Attempt counter after a sequence of iteration events. -/
def foldCounter (c : Nat) (evs : List IterationEvent) : Nat :=
  evs.foldl applyEvent c

/-- All attempt-counter values reached while consuming `evs` from value
`c` stay at most `m`. -/
def countersOK (c m : Nat) : List IterationEvent → Prop
  | [] => True
  | e :: evs => applyEvent c e ≤ m ∧ countersOK (applyEvent c e) m evs

/-- Invariant of the batcher: a pending zero-delay timer implies the
buffer already holds at least `MAX_BUFFER_SIZE` events. -/
def BatcherInv (st : BatcherState) : Prop :=
  st.timerDelay = some 0 → MAX_BUFFER_SIZE ≤ st.buffer.length

/-- A log event used by concrete batcher traces: a non-lifecycle stdout
message containing the error keyword. -/
def capEvent : LogEvent :=
  ⟨"api", "Error: boom", StreamKind.stdout, 0⟩

/-- A trace that hits the buffer cap, accumulates 101 further events
while the first batch callback is in flight, and then lets the zero-delay
flush fire. -/
def capTrace : List (Nat × BatcherAction) :=
  List.replicate 100 ((0 : Nat), BatcherAction.logEvent capEvent) ++
  List.replicate 101 ((0 : Nat), BatcherAction.logEvent capEvent) ++
  [((0 : Nat), BatcherAction.batchDone), ((0 : Nat), BatcherAction.timerFires)]

/-- A concrete state used by witnesses: a fresh incident state carrying a
not-yet-validated plan with one destructive step. -/
def badPlanState : IncidentResolutionState :=
  { createInitialState ["[api] Error: boom"] with
      plan := some ⟨"restart", [⟨"rm -rf /", "drop"⟩], []⟩ }

/-- A concrete state used by witnesses: a validated plan whose execution
succeeded, with one verification command pending. -/
def verifyReadyState : IncidentResolutionState :=
  { createInitialState ["[api] Error: boom"] with
      plan := some ⟨"restart", [⟨"docker start api", "start"⟩],
                    [⟨"docker inspect api", "check"⟩]⟩,
      planValidated := true,
      executionResult := some ⟨[], -1⟩ }

/-- A concrete state used by witnesses: analysed and feasible, ready for
planning. -/
def planReadyState : IncidentResolutionState :=
  { createInitialState ["[api] Error: boom"] with
      incidentGraph := some ⟨[⟨"api", "container.api.stopped", [], "t"⟩], [], some 0, "api down"⟩,
      feasibility := some ⟨true, "restart is safe", none⟩ }

/-- Case-insensitive "begins with `docker` followed by a whitespace
character" — the condition the first blocked pattern's negative lookahead
tests for. -/
def beginsWithDockerWhitespace (l : List Char) : Bool :=
  match l with
  | a :: b :: c :: d :: e :: f :: g :: _ =>
    a.toLower = 'd' && b.toLower = 'o' && c.toLower = 'c' && d.toLower = 'k' &&
    e.toLower = 'e' && f.toLower = 'r' && isSpaceChar g
  | _ => false

/-! # Theorems -/

/-- C10: for every command whose JS-trim is empty and every set of known
containers, `validateCommand` rejects with reason "Empty command not
allowed"; the result does not depend on the blocked patterns or on the
container set (it is the same for every `known`), so the empty check
precedes both. -/
theorem C10_empty_command_rejected (cmd : String) (known : List String)
    (h : jsTrim cmd.toList = []) :
    validateCommand cmd known = some ⟨cmd, "Empty command not allowed"⟩ := by
  unfold validateCommand
  simp [h]
  intro hc
  exact absurd h hc

/-- Witness for C10 at a whitespace-only command. -/
theorem C10_witness :
    jsTrim "   ".toList = [] ∧
    validateCommand "   " ["api"] = some ⟨"   ", "Empty command not allowed"⟩ :=
  ⟨by decide, C10_empty_command_rejected "   " ["api"] (by decide)⟩

/-- Step names recorded by the executor match the input commands. -/
theorem executeCommandsAux_names (env : ExecEnv) (clock : Clock) (steps : List String) :
    ∀ (i j : Nat),
      j < (executeCommandsAux env clock i steps).1.length →
      ((executeCommandsAux env clock i steps).1.getD j default).step = steps.getD j "" := by
  induction steps with
  | nil => intro i j h; simp [executeCommandsAux] at h
  | cons cmd rest ih =>
    intro i j h
    by_cases hs : cmdSuccess (env i cmd)
    · cases j with
      | zero => simp [executeCommandsAux, hs]
      | succ k =>
        simp only [executeCommandsAux, hs, if_true, List.length_cons] at h
        simp only [executeCommandsAux, hs, if_true, List.getD_cons_succ,
          List.getD_cons_succ]
        exact ih (i + 1) k (by omega)
    · cases j with
      | zero => simp [executeCommandsAux, hs]
      | succ k =>
        simp [executeCommandsAux, hs] at h

/-- The executor reports `-1` exactly when every recorded step
succeeded. -/
theorem executeCommandsAux_neg_one_iff (env : ExecEnv) (clock : Clock) (steps : List String) :
    ∀ i, (executeCommandsAux env clock i steps).2 = -1 ↔
      ∀ r ∈ (executeCommandsAux env clock i steps).1, r.status = StepStatus.success := by
  induction steps with
  | nil => intro i; simp [executeCommandsAux]
  | cons cmd rest ih =>
    intro i
    by_cases hs : cmdSuccess (env i cmd)
    · simp [executeCommandsAux, hs, ih (i + 1)]
    · have heq : executeCommandsAux env clock i (cmd :: rest) =
          ([⟨cmd, StepStatus.failure, (env i cmd).exitCode, (env i cmd).stdout,
             (env i cmd).stderr, clock i⟩], Int.ofNat i) := by
        simp [executeCommandsAux, hs]
      rw [heq]
      simp

/-- On failure the executor stops: the failing step is the last recorded
one and its status is `failure`. -/
theorem executeCommandsAux_failed (env : ExecEnv) (clock : Clock) (steps : List String) :
    ∀ i, (executeCommandsAux env clock i steps).2 ≠ -1 →
      ∃ n : Nat, (executeCommandsAux env clock i steps).2 = Int.ofNat (i + n) ∧
        (executeCommandsAux env clock i steps).1.length = n + 1 ∧
        ((executeCommandsAux env clock i steps).1.getD n default).status = StepStatus.failure := by
  induction steps with
  | nil => intro i h; simp [executeCommandsAux] at h
  | cons cmd rest ih =>
    intro i h
    by_cases hs : cmdSuccess (env i cmd)
    · simp only [executeCommandsAux, hs, if_true] at h ⊢
      obtain ⟨n, h1, h2, h3⟩ := ih (i + 1) h
      refine ⟨n + 1, ?_, ?_, ?_⟩
      · rw [h1]; congr 1; omega
      · simp [h2]
      · simpa using h3
    · refine ⟨0, ?_, ?_, ?_⟩ <;> simp [executeCommandsAux, hs]

/-- C2: `executeCommands` runs the commands in order and stops at the
first failure.  An empty input yields `{results = [], failedAtStep = -1}`;
`failedAtStep = -1` iff every result has status `success`; otherwise the
failing step is the last recorded one, `results.length = failedAtStep + 1`
and its status is `failure`; and `results[j].step` is the `j`-th input
command for every recorded index `j`. -/
theorem C2_executeCommands (env : ExecEnv) (clock : Clock) (steps : List String) :
    executeCommands env clock [] = ⟨[], -1⟩ ∧
    ((executeCommands env clock steps).failedAtStep = -1 ↔
      ∀ r ∈ (executeCommands env clock steps).results, r.status = StepStatus.success) ∧
    ((executeCommands env clock steps).failedAtStep ≠ -1 →
      ∃ n : Nat, (executeCommands env clock steps).failedAtStep = Int.ofNat n ∧
        (executeCommands env clock steps).results.length = n + 1 ∧
        ((executeCommands env clock steps).results.getD n default).status = StepStatus.failure) ∧
    (∀ j, j < (executeCommands env clock steps).results.length →
      ((executeCommands env clock steps).results.getD j default).step = steps.getD j "") := by
  refine ⟨by simp [executeCommands, executeCommandsAux], ?_, ?_, ?_⟩
  · simpa [executeCommands] using executeCommandsAux_neg_one_iff env clock steps 0
  · intro h
    obtain ⟨n, h1, h2, h3⟩ := executeCommandsAux_failed env clock steps 0 (by simpa [executeCommands] using h)
    exact ⟨n, by simpa [executeCommands] using h1, by simpa [executeCommands] using h2,
      by simpa [executeCommands] using h3⟩
  · intro j hj
    exact executeCommandsAux_names env clock steps 0 j (by simpa [executeCommands] using hj)

/-- Witness for C2 on a concrete two-command run whose second command
fails. -/
theorem C2_witness :
    ∃ n : Nat,
      (executeCommands
          (fun i _ => ⟨if i = 0 then 0 else 1, none, "", ""⟩)
          (fun _ => "t")
          ["docker start cache", "docker start api"]).failedAtStep = Int.ofNat n ∧
      (executeCommands
          (fun i _ => ⟨if i = 0 then 0 else 1, none, "", ""⟩)
          (fun _ => "t")
          ["docker start cache", "docker start api"]).results.length = n + 1 ∧
      ((executeCommands
          (fun i _ => ⟨if i = 0 then 0 else 1, none, "", ""⟩)
          (fun _ => "t")
          ["docker start cache", "docker start api"]).results.getD n default).status
        = StepStatus.failure :=
  (C2_executeCommands _ _ _).2.2.1 (by decide)

/-- C3: `validatePlan` fails with the state unchanged when no plan
exists; fails with the stable reason "Plan is already validated." when
`planValidated` already holds; on success only sets `planValidated`; and
on a validator rejection only sets `failureContext`, carrying the exact
offending command, tagged `verification_command_rejected` precisely when
that command appears in `plan.verification` (so a command duplicated in
both lists is tagged as verification) and
`remediation_command_rejected` otherwise. -/
theorem C3_validatePlan (known : List String) (state : IncidentResolutionState) :
    (state.plan = none →
      validatePlan known state = capFailure state "Cannot validate: no plan exists.") ∧
    (state.plan.isSome = true → state.planValidated = true →
      validatePlan known state = capFailure state "Plan is already validated.") ∧
    (∀ plan, state.plan = some plan → state.planValidated = false →
      assertCommandsValid plan.steps known = none →
      assertCommandsValid plan.verification known = none →
      validatePlan known state =
        capSuccess { state with planValidated := true }
          (some ⟨true, plan.steps.length, plan.verification.length⟩)) ∧
    (∀ plan err, state.plan = some plan → state.planValidated = false →
      (assertCommandsValid plan.steps known).or (assertCommandsValid plan.verification known)
        = some err →
      (validatePlan known state).success = false ∧
      (validatePlan known state).state =
        { state with failureContext := some
                         ⟨if plan.verification.any (fun v => v.action = err.command)
                            then FailureType.verification_command_rejected
                            else FailureType.remediation_command_rejected,
                          some err.command, some err.reason, none⟩ }) := by
  refine ⟨?_, ?_, ?_, ?_⟩
  · intro h
    simp [validatePlan, h]
  · intro h1 h2
    obtain ⟨plan, hp⟩ := Option.isSome_iff_exists.mp h1
    simp [validatePlan, hp, h2]
  · intro plan hp hv h1 h2
    simp [validatePlan, hp, hv, h1, h2]
  · intro plan err hp hv hor
    cases hsteps : assertCommandsValid plan.steps known with
    | some e =>
      rw [hsteps] at hor
      simp [Option.or] at hor
      subst hor
      constructor <;> simp [validatePlan, hp, hv, hsteps, capFailure]
    | none =>
      rw [hsteps] at hor
      simp [Option.or] at hor
      constructor <;> simp [validatePlan, hp, hv, hsteps, hor, capFailure]

/-- Witness for C3: a destructive remediation step is rejected and tagged
as a remediation command. -/
theorem C3_witness :
    (validatePlan ["api"] badPlanState).success = false ∧
    (validatePlan ["api"] badPlanState).state =
      { badPlanState with failureContext := some
                              ⟨FailureType.remediation_command_rejected,
                               some "rm -rf /", some "Command must start with 'docker'", none⟩ } := by
  have h := (C3_validatePlan ["api"] badPlanState).2.2.2
    ⟨"restart", [⟨"rm -rf /", "drop"⟩], []⟩
    ⟨"rm -rf /", "Command must start with 'docker'"⟩
    (by decide) (by decide) (by decide)
  exact ⟨h.1, by rw [h.2]; rfl⟩

/-- C4: `verifyPlan` fails with the input state unchanged unless an
execution result with `failedAtStep = -1` is present; with that
precondition and a plan, an empty `plan.verification` resolves the
incident with an empty verification result and no command executed (the
result is the same for every execution oracle); otherwise the
verification commands run in order, full success resolves the incident,
and a partial failure records the verification result and a
`verification_failed` failure context carrying the failing step and its
output, leaving `resolution` unchanged. -/
theorem C4_verifyPlan (env : ExecEnv) (clock : Clock) (state : IncidentResolutionState) :
    (¬ (∃ er, state.executionResult = some er ∧ er.failedAtStep = -1) →
      (verifyPlan env clock state).success = false ∧
      (verifyPlan env clock state).state = state) ∧
    (∀ plan er, state.plan = some plan → state.executionResult = some er →
      er.failedAtStep = -1 → plan.verification = [] →
      verifyPlan env clock state =
        capSuccess { state with verificationResult := some ⟨[], -1⟩,
                                resolution := Resolution.resolved }
          (some ⟨⟨[], -1⟩, true⟩)) ∧
    (∀ plan er res, state.plan = some plan → state.executionResult = some er →
      er.failedAtStep = -1 → plan.verification ≠ [] →
      res = executeCommands env clock (plan.verification.map (·.action)) →
      res.failedAtStep = -1 →
      verifyPlan env clock state =
        capSuccess { state with verificationResult := some res,
                                resolution := Resolution.resolved }
          (some ⟨res, true⟩)) ∧
    (∀ plan er res, state.plan = some plan → state.executionResult = some er →
      er.failedAtStep = -1 → plan.verification ≠ [] →
      res = executeCommands env clock (plan.verification.map (·.action)) →
      res.failedAtStep ≠ -1 →
      (verifyPlan env clock state).success = false ∧
      (verifyPlan env clock state).state =
        { state with
            verificationResult := some res,
            failureContext := some
              ⟨FailureType.verification_failed,
               some ((plan.verification.getD res.failedAtStep.toNat default).action),
               some ("Verification failed at step " ++ toString (res.failedAtStep + 1)),
               some (jsOr (res.results.getD res.failedAtStep.toNat default).stderr
                          (res.results.getD res.failedAtStep.toNat default).stdout)⟩ } ∧
      (verifyPlan env clock state).state.resolution = state.resolution) := by
  refine ⟨?_, ?_, ?_, ?_⟩
  · intro hnot
    cases hp : state.plan with
    | none => simp [verifyPlan, hp, capFailure]
    | some plan =>
      cases hx : state.executionResult with
      | none => simp [verifyPlan, hp, hx, capFailure]
      | some er =>
        have hne : er.failedAtStep ≠ -1 := by
          intro hcontra
          exact hnot ⟨er, hx, hcontra⟩
        simp [verifyPlan, hp, hx, hne, capFailure]
  · intro plan er hp hx hfs hempty
    simp [verifyPlan, hp, hx, hfs, hempty]
  · intro plan er res hp hx hfs hnempty hres hok
    subst hres
    simp [verifyPlan, hp, hx, hfs, List.length_eq_zero.not.mpr hnempty, hok]
  · intro plan er res hp hx hfs hnempty hres hbad
    subst hres
    refine ⟨?_, ?_, ?_⟩ <;>
      simp [verifyPlan, hp, hx, hfs, List.length_eq_zero.not.mpr hnempty, hbad, capFailure]

/-- Witness for C4: with an empty verification list the incident resolves
without any command being run. -/
theorem C4_witness :
    verifyPlan (fun _ _ => ⟨1, none, "", "boom"⟩) (fun _ => "t")
        { verifyReadyState with
            plan := some ⟨"restart", [⟨"docker start api", "start"⟩], []⟩ } =
      capSuccess
        { { verifyReadyState with
              plan := some ⟨"restart", [⟨"docker start api", "start"⟩], []⟩ } with
            verificationResult := some ⟨[], -1⟩,
            resolution := Resolution.resolved }
        (some ⟨⟨[], -1⟩, true⟩) :=
  (C4_verifyPlan _ _ _).2.1 ⟨"restart", [⟨"docker start api", "start"⟩], []⟩ ⟨[], -1⟩
    rfl rfl rfl rfl

/-- C5: `planRemediation` fails with the state unchanged unless
feasibility is present and feasible and either no plan exists or a plan
exists together with a failure context; on success it stores the plan the
agent produced and simultaneously resets `planValidated` and clears
`executionResult`, `verificationResult` and `failureContext`, leaving
`logs`, `incidentGraph`, `feasibility` and `resolution` unchanged. -/
theorem C5_planRemediation (agent : PlannerAgent) (state : IncidentResolutionState) :
    (¬ (∃ f, state.feasibility = some f ∧ f.feasible = true ∧
          (state.plan = none ∨ state.failureContext.isSome = true)) →
      (planRemediation agent state).success = false ∧
      (planRemediation agent state).state = state) ∧
    ((planRemediation agent state).success = true →
      ∃ p h, agent state = Except.ok (p, h) ∧
        planRemediation agent state =
          capSuccess { state with plan := some p,
                                  plannerHistory := h,
                                  planValidated := false,
                                  executionResult := none,
                                  verificationResult := none,
                                  failureContext := none }
            (some ⟨p⟩)) := by
  constructor
  · intro hnot
    cases hg : state.incidentGraph with
    | none => simp [planRemediation, hg, capFailure]
    | some graph =>
      by_cases hn : graph.nodes.isEmpty
      · simp [planRemediation, hg, hn, capFailure]
      · cases hf : state.feasibility with
        | none => simp [planRemediation, hg, hn, hf, capFailure]
        | some f =>
          by_cases hfe : f.feasible
          · have hguard : state.plan.isSome = true ∧ state.failureContext.isNone = true := by
              by_contra hcon
              cases hpl : state.plan with
              | none => exact hnot ⟨f, hf, hfe, Or.inl hpl⟩
              | some plan =>
                cases hfc : state.failureContext with
                | none => exact hcon ⟨by simp [hpl], by simp [hfc]⟩
                | some fc => exact hnot ⟨f, hf, hfe, Or.inr (by simp [hfc])⟩
            simp [planRemediation, hg, hn, hf, hfe, hguard.1, hguard.2, capFailure]
          · simp [planRemediation, hg, hn, hf, hfe, capFailure]
  · intro hsucc
    cases hg : state.incidentGraph with
    | none => simp [planRemediation, hg, capFailure] at hsucc
    | some graph =>
      by_cases hn : graph.nodes.isEmpty
      · simp [planRemediation, hg, hn, capFailure] at hsucc
      · cases hf : state.feasibility with
        | none => simp [planRemediation, hg, hn, hf, capFailure] at hsucc
        | some f =>
          by_cases hfe : f.feasible
          · by_cases hguard : state.plan.isSome && state.failureContext.isNone
            · simp [planRemediation, hg, hn, hf, hfe, hguard, capFailure] at hsucc
            · cases hr : graph.root with
              | none =>
                simp [planRemediation, hg, hn, hf, hfe, hguard, hr, capFailure] at hsucc
              | some rootIdx =>
                by_cases hb : rootIdx < 0 || rootIdx ≥ graph.nodes.length
                · simp [planRemediation, hg, hn, hf, hfe, hguard, hr, hb, capFailure] at hsucc
                · cases ha : agent state with
                  | error e =>
                    simp [planRemediation, hg, hn, hf, hfe, hguard, hr, hb, ha, capFailure] at hsucc
                  | ok v =>
                    obtain ⟨p, hh⟩ := v
                    refine ⟨p, hh, rfl, ?_⟩
                    simp [planRemediation, hg, hn, hf, hfe, hguard, hr, hb, ha]
          · simp [planRemediation, hg, hn, hf, hfe, capFailure] at hsucc

/-- Witness for C5: a concrete feasible state and a constant agent
produce a stored plan with the cleared downstream fields. -/
theorem C5_witness :
    ∃ p h,
      (fun (_ : IncidentResolutionState) =>
          (Except.ok (⟨"restart api", [⟨"docker start api", "start"⟩], []⟩, []) :
            Except String (RemediationPlan × List Content))) planReadyState = Except.ok (p, h) ∧
      planRemediation
          (fun _ =>
            (Except.ok (⟨"restart api", [⟨"docker start api", "start"⟩], []⟩, []) :
              Except String (RemediationPlan × List Content)))
          planReadyState =
        capSuccess { planReadyState with plan := some p,
                                         plannerHistory := h,
                                         planValidated := false,
                                         executionResult := none,
                                         verificationResult := none,
                                         failureContext := none }
          (some ⟨p⟩) :=
  (C5_planRemediation
    (fun _ =>
      (Except.ok (⟨"restart api", [⟨"docker start api", "start"⟩], []⟩, []) :
        Except String (RemediationPlan × List Content)))
    planReadyState).2 (by decide)

/-- `listStartsWith` agrees with list prefixes. -/
theorem listStartsWith_iff (sub : List Char) : ∀ l : List Char,
    listStartsWith l sub = true ↔ sub <+: l := by
  induction sub with
  | nil => intro l; simp [listStartsWith]
  | cons d ds ih =>
    intro l
    cases l with
    | nil => simp [listStartsWith]
    | cons c cs =>
      simp only [listStartsWith, Bool.and_eq_true, decide_eq_true_eq, ih,
        List.cons_prefix_cons]
      exact and_congr_left fun _ => eq_comm

/-- `containsSub` agrees with contiguous-sublist containment. -/
theorem containsSub_iff (sub : List Char) : ∀ l : List Char,
    containsSub l sub = true ↔ sub <:+: l := by
  intro l
  induction l with
  | nil => simp [containsSub, List.isEmpty_iff]
  | cons c cs ih =>
    simp [containsSub, listStartsWith_iff, ih, List.infix_cons_iff]

/-- Lifecycle test characterised via sublist containment. -/
theorem isLifecycleEvent_iff (msg : String) :
    isLifecycleEvent msg = true ↔
      ∃ kw ∈ LIFECYCLE_KEYWORDS, kw.toList <:+: lowerStr msg.toList := by
  simp [isLifecycleEvent, List.any_eq_true, containsSub_iff]

/-- Error-indicator test characterised via sublist containment and the
pattern table. -/
theorem hasErrorIndicator_iff (e : LogEvent) :
    hasErrorIndicator e = true ↔
      (∃ kw ∈ ERROR_KEYWORDS, kw.toList <:+: lowerStr e.message.toList) ∨
      (∃ r ∈ ERROR_PATTERNS, reTest r e.message.toList = true) := by
  simp [hasErrorIndicator, List.any_eq_true, containsSub_iff]

/-- C8: the filter includes an event iff its message contains no
lifecycle keyword (case-insensitively) and then either the event came
from stderr, or the message contains an error keyword
(case-insensitively), or the message matches one of the error regexes; in
particular a stderr event whose message contains a lifecycle keyword is
dropped. -/
theorem C8_shouldInclude (e : LogEvent) :
    (shouldInclude e = true ↔
      (∀ kw ∈ LIFECYCLE_KEYWORDS, ¬ (kw.toList <:+: lowerStr e.message.toList)) ∧
      (e.stream = StreamKind.stderr ∨
        (∃ kw ∈ ERROR_KEYWORDS, kw.toList <:+: lowerStr e.message.toList) ∨
        (∃ r ∈ ERROR_PATTERNS, reTest r e.message.toList = true))) ∧
    (e.stream = StreamKind.stderr →
      (∃ kw ∈ LIFECYCLE_KEYWORDS, kw.toList <:+: lowerStr e.message.toList) →
      shouldInclude e = false) := by
  constructor
  · by_cases hl : isLifecycleEvent e.message
    · have hfalse : shouldInclude e = false := by simp [shouldInclude, hl]
      rw [hfalse]
      simp only [Bool.false_eq_true, false_iff]
      rintro ⟨hforall, -⟩
      obtain ⟨kw, hmem, hinf⟩ := (isLifecycleEvent_iff e.message).mp hl
      exact hforall kw hmem hinf
    · by_cases hs : e.stream = StreamKind.stderr
      · have htrue : shouldInclude e = true := by simp [shouldInclude, hl, hs]
        rw [htrue]
        simp only [true_iff]
        refine ⟨?_, Or.inl hs⟩
        intro kw hmem hinf
        exact hl ((isLifecycleEvent_iff e.message).mpr ⟨kw, hmem, hinf⟩)
      · have heq : shouldInclude e = hasErrorIndicator e := by
          simp [shouldInclude, hl, hs]
        rw [heq, hasErrorIndicator_iff]
        constructor
        · intro hh
          exact ⟨fun kw hmem hinf =>
            hl ((isLifecycleEvent_iff e.message).mpr ⟨kw, hmem, hinf⟩), Or.inr hh⟩
        · rintro ⟨-, (hstd | hh)⟩
          · exact absurd hstd hs
          · exact hh
  · intro _ hex
    simp [shouldInclude, (isLifecycleEvent_iff e.message).mpr hex]

/-- Witness for C8: a stderr event carrying a lifecycle keyword is
excluded. -/
theorem C8_witness :
    shouldInclude ⟨"api", "graceful shutdown", StreamKind.stderr, 0⟩ = false :=
  (C8_shouldInclude _).2 rfl
    ⟨"shutdown", by decide, (containsSub_iff _ _).mp (by decide)⟩

/-- C9: when the user rejects the plan at `requestApproval`, the
orchestrator sets `failureContext` to `user_rejected` with the feedback as
reason, resets `planValidated` and clears `executionResult` and
`verificationResult`, leaving every other state field (plan, logs,
incidentGraph, feasibility, plannerHistory, resolution) unchanged; on
approval the state is not modified at all. -/
theorem C9_requestApproval (inp : LoopInput) (state : IncidentResolutionState)
    (ctx : OrchestrationContext) (r c fb : String)
    (hb : ctx.attemptCount < ctx.maxAttempts)
    (hr : inp.reasoner = ReasonerOutcome.call CapabilityName.requestApproval r c) :
    (inp.approval = ApprovalChoice.reject fb →
      (orchStep inp state ctx).state =
        { state with
            failureContext := some ⟨FailureType.user_rejected, none, some fb, none⟩,
            planValidated := false,
            executionResult := none,
            verificationResult := none }) ∧
    (inp.approval = ApprovalChoice.approve → (orchStep inp state ctx).state = state) := by
  have hnb : ¬ ctx.attemptCount ≥ ctx.maxAttempts := by omega
  constructor
  · intro ha
    simp [orchStep, hnb, hr, ha]
  · intro ha
    simp [orchStep, hnb, hr, ha]

/-- Witness for C9 on a concrete rejected approval. -/
theorem C9_witness :
    (orchStep
        ⟨ReasonerOutcome.call CapabilityName.requestApproval "" "",
         EscalationChoice.dismiss, ApprovalChoice.reject "use the pool",
         HandlerOutcome.thrown "", "t"⟩
        (createInitialState ["[api] Error: boom"])
        (createInitialContext 3)).state =
      { createInitialState ["[api] Error: boom"] with
          failureContext := some ⟨FailureType.user_rejected, none, some "use the pool", none⟩,
          planValidated := false,
          executionResult := none,
          verificationResult := none } :=
  (C9_requestApproval _ _ _ "" "" "use the pool" (by decide) rfl).1 rfl

/-- `matchRE` on an empty input against a class-headed chain. -/
theorem matchRE_chain_nil (p : Char → Bool) (y z : RE) (prev : Option Char) :
    matchRE (RE.seq (RE.seq (RE.cls p) y) z) prev [] = [] := by
  simp [matchRE]

/-- `matchRE` consumes the head class of a chain. -/
theorem matchRE_chain_cons (p : Char → Bool) (y z : RE) (prev : Option Char)
    (c : Char) (cs : List Char) :
    matchRE (RE.seq (RE.seq (RE.cls p) y) z) prev (c :: cs) =
      if p c then matchRE (RE.seq y z) (some c) cs else [] := by
  by_cases h : p c <;> simp [matchRE, h]

/-- `matchRE` drops a leading epsilon. -/
theorem matchRE_eps_seq (z : RE) (prev : Option Char) (l : List Char) :
    matchRE (RE.seq RE.eps z) prev l = matchRE z prev l := by
  simp [matchRE]

/-- `matchRE` of a bare class on an empty input. -/
theorem matchRE_cls_nil (p : Char → Bool) (prev : Option Char) :
    matchRE (RE.cls p) prev [] = [] := rfl

/-- `matchRE` of a bare class on a cons input. -/
theorem matchRE_cls_cons (p : Char → Bool) (prev : Option Char) (c : Char) (cs : List Char) :
    matchRE (RE.cls p) prev (c :: cs) = if p c then [(some c, cs)] else [] := rfl

/-- `litCI "docker"` unfolded to its explicit character classes. -/
theorem dockerStartRE_eq : dockerStartRE =
    RE.seq
      (RE.seq (RE.cls fun d => d.toLower = 'd')
        (RE.seq (RE.cls fun d => d.toLower = 'o')
          (RE.seq (RE.cls fun d => d.toLower = 'c')
            (RE.seq (RE.cls fun d => d.toLower = 'k')
              (RE.seq (RE.cls fun d => d.toLower = 'e')
                (RE.seq (RE.cls fun d => d.toLower = 'r') RE.eps))))))
      (RE.cls isSpaceChar) := rfl

/-- The anchored first pattern fails to match exactly when the command
does not begin, case-insensitively, with `docker` followed by a
whitespace character. -/
theorem dockerStart_isEmpty_iff (l : List Char) :
    (matchRE dockerStartRE none l).isEmpty = !beginsWithDockerWhitespace l := by
  rw [dockerStartRE_eq]
  rcases l with _ | ⟨a, _ | ⟨b, _ | ⟨c, _ | ⟨d, _ | ⟨e, _ | ⟨f, _ | ⟨g, rest⟩⟩⟩⟩⟩⟩⟩ <;>
    simp only [matchRE_chain_nil, matchRE_chain_cons, matchRE_eps_seq,
      matchRE_cls_nil, matchRE_cls_cons, beginsWithDockerWhitespace] <;>
    (try split_ifs) <;> simp_all

/-- The match counter of `findTargetContainer`'s fold counts exactly the
matching containers. -/
theorem foldTarget_count (l : List String) (f : String → Bool) :
    ∀ acc : Option String × Nat,
      (l.foldl (fun acc name => if f name then (some name, acc.2 + 1) else acc) acc).2
        = acc.2 + (l.filter f).length := by
  induction l with
  | nil => intro acc; simp
  | cons x xs ih =>
    intro acc
    by_cases hx : f x
    · simp [List.foldl_cons, hx, ih, List.filter_cons]
      omega
    · simp [List.foldl_cons, hx, ih, List.filter_cons]

/-- The fold of `findTargetContainer` never forgets a previously found
match. -/
theorem foldTarget_found_isSome (l : List String) (f : String → Bool) :
    ∀ acc : Option String × Nat, acc.1.isSome = true →
      ((l.foldl (fun acc name => if f name then (some name, acc.2 + 1) else acc) acc).1).isSome
        = true := by
  induction l with
  | nil => intro acc h; simpa using h
  | cons x xs ih =>
    intro acc h
    by_cases hx : f x
    · simp only [List.foldl_cons, hx, if_true]
      exact ih _ (by simp)
    · simp only [List.foldl_cons, hx, if_false]
      exact ih _ h

/-- If some container matches, the fold ends with a found value. -/
theorem foldTarget_found_of_pos (l : List String) (f : String → Bool) :
    ∀ acc : Option String × Nat, 0 < (l.filter f).length →
      ((l.foldl (fun acc name => if f name then (some name, acc.2 + 1) else acc) acc).1).isSome
        = true := by
  induction l with
  | nil => intro acc h; simp at h
  | cons x xs ih =>
    intro acc h
    by_cases hx : f x
    · simp only [List.foldl_cons, hx, if_true]
      exact foldTarget_found_isSome xs f _ (by simp)
    · simp only [List.foldl_cons, hx, if_false]
      exact ih _ (by simpa [List.filter_cons, hx] using h)

/-- `findTargetContainer` succeeds exactly when precisely one known
container matches the command at a word boundary. -/
theorem findTargetContainer_isSome_iff (l : List Char) (known : List String) :
    (findTargetContainer l known).isSome = true ↔
      (known.filter fun c => containerMatches c l).length = 1 := by
  have hc := foldTarget_count known (fun c => containerMatches c l) (none, 0)
  by_cases hlen : (known.filter fun c => containerMatches c l).length = 1
  · simp only [findTargetContainer, hc, hlen, Nat.zero_add, if_true, iff_true]
    exact foldTarget_found_of_pos known _ _ (by omega)
  · simp only [findTargetContainer]
    rw [if_neg (by omega)]
    simp [hlen]

/-- The body of `validateCommand` after the non-empty check, as a
function of the trimmed command. -/
def validateCommandBody (cmd : String) (known : List String) (l : List Char) :
    Option ValidationError :=
  match firstBlocked l with
  | some reason => some ⟨cmd, reason⟩
  | none =>
    match findTargetContainer l known with
    | some _ => none
    | none =>
      if (known.filter fun c => containerMatches c l).isEmpty then
        some ⟨cmd, "Command does not reference any known container"⟩
      else
        some ⟨cmd, "Command references multiple containers: " ++
          String.intercalate ", " (known.filter fun c => containerMatches c l)⟩

/-- `validateCommand` on a command with non-empty trim is its body at the
trimmed command. -/
theorem validateCommand_eq_body (cmd : String) (known : List String) (l : List Char)
    (hl : l = jsTrim cmd.toList) (h : l ≠ []) :
    validateCommand cmd known = validateCommandBody cmd known l := by
  rw [validateCommand, ← hl, validateCommandBody]
  rw [if_neg (by simpa [List.isEmpty_iff] using h)]

/-- Characterisation of `validateCommandBody` (used by the amended C1). -/
theorem validateCommandBody_characterization (cmd : String) (known : List String)
    (l : List Char) :
    (validateCommandBody cmd known l = none ↔
      (∀ pr ∈ BLOCKED_PATTERNS, pr.1 l = false) ∧
      (known.filter fun c => containerMatches c l).length = 1) ∧
    (validateCommandBody cmd known l = none → beginsWithDockerWhitespace l = true) ∧
    (∀ pr ∈ BLOCKED_PATTERNS, pr.1 l = true →
      ∃ reason, validateCommandBody cmd known l = some ⟨cmd, reason⟩ ∧
        ∃ q ∈ BLOCKED_PATTERNS, q.1 l = true ∧ q.2 = reason) ∧
    ((∀ pr ∈ BLOCKED_PATTERNS, pr.1 l = false) →
      (known.filter fun c => containerMatches c l).length = 0 →
      validateCommandBody cmd known l =
        some ⟨cmd, "Command does not reference any known container"⟩) ∧
    ((∀ pr ∈ BLOCKED_PATTERNS, pr.1 l = false) →
      2 ≤ (known.filter fun c => containerMatches c l).length →
      validateCommandBody cmd known l =
        some ⟨cmd, "Command references multiple containers: " ++
          String.intercalate ", " (known.filter fun c => containerMatches c l)⟩) := by
  by_cases hb : ∀ pr ∈ BLOCKED_PATTERNS, pr.1 l = false
  · have hfb : firstBlocked l = none := by
      have hfind : (BLOCKED_PATTERNS.find? fun pr => pr.1 l) = none :=
        List.find?_eq_none.mpr (fun pr hpr => by simp [hb pr hpr])
      simp [firstBlocked, hfind]
    refine ⟨?_, ?_, ?_, ?_, ?_⟩
    · constructor
      · intro hacc
        refine ⟨hb, ?_⟩
        rw [← findTargetContainer_isSome_iff]
        cases hft : findTargetContainer l known with
        | none =>
          rw [validateCommandBody, hfb, hft] at hacc
          by_cases hemp : (known.filter fun c => containerMatches c l).isEmpty <;>
            simp [hemp] at hacc
        | some x => simp
      · rintro ⟨-, hone⟩
        obtain ⟨x, hx⟩ :=
          Option.isSome_iff_exists.mp ((findTargetContainer_isSome_iff _ _).mpr hone)
        rw [validateCommandBody, hfb, hx]
    · intro _
      have h1 : (matchRE dockerStartRE none l).isEmpty = false :=
        hb _ (List.mem_cons_self _ _)
      rw [dockerStart_isEmpty_iff] at h1
      simpa using h1
    · intro pr hpr htrue
      exact absurd htrue (by simp [hb pr hpr])
    · intro _ hzero
      have hnone : findTargetContainer l known = none := by
        cases hft : findTargetContainer l known with
        | none => rfl
        | some x =>
          have := (findTargetContainer_isSome_iff l known).mp (by simp [hft])
          omega
      have hfilter : (known.filter fun c => containerMatches c l) = [] :=
        List.length_eq_zero.mp hzero
      rw [validateCommandBody, hfb, hnone]
      simp [hfilter]
    · intro _ htwo
      have hnone : findTargetContainer l known = none := by
        cases hft : findTargetContainer l known with
        | none => rfl
        | some x =>
          have := (findTargetContainer_isSome_iff l known).mp (by simp [hft])
          omega
      have hfilter : (known.filter fun c => containerMatches c l).isEmpty = false := by
        cases hF : (known.filter fun c => containerMatches c l) with
        | nil => rw [hF] at htwo; simp at htwo
        | cons a as => simp
      rw [validateCommandBody, hfb, hnone]
      simp [hfilter]
  · push_neg at hb
    obtain ⟨pr, hpr, hprt⟩ := hb
    have hprt2 : pr.1 l = true := by
      cases hv : pr.1 l with
      | true => rfl
      | false => exact absurd hv hprt
    have hfind : ∃ q, (BLOCKED_PATTERNS.find? fun x => x.1 l) = some q := by
      rw [← Option.isSome_iff_exists, List.find?_isSome]
      exact ⟨pr, hpr, hprt2⟩
    obtain ⟨q, hq⟩ := hfind
    have hqmem := List.mem_of_find?_eq_some hq
    have hqt := List.find?_some hq
    have hfb : firstBlocked l = some q.2 := by
      simp [firstBlocked, hq]
    have hvc : validateCommandBody cmd known l = some ⟨cmd, q.2⟩ := by
      rw [validateCommandBody, hfb]
    refine ⟨?_, ?_, ?_, ?_, ?_⟩
    · rw [hvc]
      simp only [reduceCtorEq, false_iff]
      rintro ⟨hall, -⟩
      exact absurd (hall pr hpr) (by simp [hprt2])
    · intro hacc
      rw [hvc] at hacc
      exact absurd hacc (by simp)
    · intro _ _ _
      exact ⟨q.2, hvc, q, hqmem, hqt, rfl⟩
    · intro hall
      exact absurd (hall pr hpr) (by simp [hprt2])
    · intro hall
      exact absurd (hall pr hpr) (by simp [hprt2])

/-- C1, counterexample: the first blocked pattern is case-insensitive, so
`docker` in upper case is accepted although the command does not begin
with the literal `docker `; and a command with empty trim is rejected with
a reason that is not the table's "must start with docker" reason although
that pattern applies to it. -/
theorem C1_counterexample :
    ¬ ("docker ".toList <+: "DOCKER stop api".toList) ∧
    validateCommand "DOCKER stop api" ["api"] = none ∧
    ¬ ("docker ".toList <+: "".toList) ∧
    validateCommand "" ["api"] = some ⟨"", "Empty command not allowed"⟩ ∧
    "Empty command not allowed" ≠ "Command must start with 'docker'" :=
  ⟨by decide, by decide, by decide, by decide, by decide⟩

/-- C1, amended: for commands with non-empty trim, `validateCommand`
accepts exactly when no blocked pattern applies (the first pattern now
reading: does not begin case-insensitively with `docker` followed by any
whitespace character) and exactly one known container matches at a word
boundary; an accepted command therefore begins with `docker` + whitespace
up to case; a command some blocked pattern applies to is rejected with
the reason of an applying pattern from the table; with no pattern
applying, zero container matches are rejected with the
no-known-container reason and two or more with the multiple-containers
reason listing them. -/
theorem C1_validateCommand_amended (cmd : String) (known : List String)
    (h : jsTrim cmd.toList ≠ []) :
    (validateCommand cmd known = none ↔
      (∀ pr ∈ BLOCKED_PATTERNS, pr.1 (jsTrim cmd.toList) = false) ∧
      (known.filter fun c => containerMatches c (jsTrim cmd.toList)).length = 1) ∧
    (validateCommand cmd known = none →
      beginsWithDockerWhitespace (jsTrim cmd.toList) = true) ∧
    (∀ pr ∈ BLOCKED_PATTERNS, pr.1 (jsTrim cmd.toList) = true →
      ∃ reason, validateCommand cmd known = some ⟨cmd, reason⟩ ∧
        ∃ q ∈ BLOCKED_PATTERNS, q.1 (jsTrim cmd.toList) = true ∧ q.2 = reason) ∧
    ((∀ pr ∈ BLOCKED_PATTERNS, pr.1 (jsTrim cmd.toList) = false) →
      (known.filter fun c => containerMatches c (jsTrim cmd.toList)).length = 0 →
      validateCommand cmd known =
        some ⟨cmd, "Command does not reference any known container"⟩) ∧
    ((∀ pr ∈ BLOCKED_PATTERNS, pr.1 (jsTrim cmd.toList) = false) →
      2 ≤ (known.filter fun c => containerMatches c (jsTrim cmd.toList)).length →
      validateCommand cmd known =
        some ⟨cmd, "Command references multiple containers: " ++
          String.intercalate ", "
            (known.filter fun c => containerMatches c (jsTrim cmd.toList))⟩) := by
  rw [validateCommand_eq_body cmd known (jsTrim cmd.toList) rfl h]
  exact validateCommandBody_characterization cmd known (jsTrim cmd.toList)

/-- Witness for C1 (amended) on an accepted concrete command. -/
theorem C1_witness :
    jsTrim "docker restart cache".toList ≠ [] ∧
    validateCommand "docker restart cache" ["cache", "api"] = none :=
  ⟨by decide,
    ((C1_validateCommand_amended "docker restart cache" ["cache", "api"] (by decide)).1).mpr
      (by decide)⟩

/-- Step equation: an excluded event leaves the batcher unchanged. -/
theorem batcherStep_logEvent_skip (windowMs now : Nat) (st : BatcherState) (e : LogEvent)
    (hi : shouldInclude e = false) :
    batcherStep windowMs now st (BatcherAction.logEvent e) = (st, none) := by
  simp [batcherStep, hi]

/-- Step equation: an included event arriving while a batch is in flight
only grows the buffer. -/
theorem batcherStep_logEvent_processing (windowMs now : Nat) (st : BatcherState) (e : LogEvent)
    (hi : shouldInclude e = true) (hp : st.isProcessing = true) :
    batcherStep windowMs now st (BatcherAction.logEvent e) =
      ({ st with buffer := st.buffer ++ [e] }, none) := by
  simp [batcherStep, hi, hp]

/-- Step equation: an included event that fills the buffer to the cap,
with no batch in flight, cancels the timer and emits immediately. -/
theorem batcherStep_logEvent_cap (windowMs now : Nat) (st : BatcherState) (e : LogEvent)
    (hi : shouldInclude e = true) (hp : st.isProcessing = false)
    (hcap : MAX_BUFFER_SIZE ≤ (st.buffer ++ [e]).length) :
    batcherStep windowMs now st (BatcherAction.logEvent e) =
      (⟨[], none, true⟩,
       some (⟨(st.buffer ++ [e]).map (fun ev => "[" ++ ev.container ++ "] " ++ ev.message),
              setOrder ((st.buffer ++ [e]).map (·.container)), now⟩, FlushTrigger.cap)) := by
  have hne : (st.buffer ++ [e]).isEmpty = false := by
    cases hbuf : st.buffer ++ [e] with
    | nil => exact absurd hbuf (by simp)
    | cons a as => simp
  simp [batcherStep, hi, hp, hcap, flushFn, hne]
  simpa using hcap

/-- Step equation: an included event below the cap, with no batch in
flight, resets the debounce timer. -/
theorem batcherStep_logEvent_debounce (windowMs now : Nat) (st : BatcherState) (e : LogEvent)
    (hi : shouldInclude e = true) (hp : st.isProcessing = false)
    (hcap : (st.buffer ++ [e]).length < MAX_BUFFER_SIZE) :
    batcherStep windowMs now st (BatcherAction.logEvent e) =
      ({ st with buffer := st.buffer ++ [e], timerDelay := some windowMs }, none) := by
  have hlt : ¬ MAX_BUFFER_SIZE ≤ st.buffer.length + 1 := by
    simp only [List.length_append, List.length_cons, List.length_nil] at hcap
    omega
  simp [batcherStep, hi, hp, hlt]

/-- Step equation: a fire with no pending timer does nothing. -/
theorem batcherStep_timer_none (windowMs now : Nat) (st : BatcherState)
    (ht : st.timerDelay = none) :
    batcherStep windowMs now st BatcherAction.timerFires = (st, none) := by
  simp [batcherStep, ht]

/-- Step equation: a fired timer whose flush hits the empty-or-processing
guard only consumes the timer. -/
theorem batcherStep_timer_fire_noop (windowMs now : Nat) (st : BatcherState) (d : Nat)
    (ht : st.timerDelay = some d) (hguard : (st.buffer.isEmpty || st.isProcessing) = true) :
    batcherStep windowMs now st BatcherAction.timerFires =
      ({ st with timerDelay := none }, none) := by
  simp only [batcherStep, ht]
  rw [flushFn]
  rw [if_pos (by simpa using hguard)]
  simp

/-- Step equation: a fired timer flushes the buffer; the zero-delay case
is the backpressure cap. -/
theorem batcherStep_timer_fire (windowMs now : Nat) (st : BatcherState) (d : Nat)
    (ht : st.timerDelay = some d) (hne : st.buffer.isEmpty = false)
    (hp : st.isProcessing = false) :
    batcherStep windowMs now st BatcherAction.timerFires =
      (⟨[], none, true⟩,
       some (⟨st.buffer.map (fun ev => "[" ++ ev.container ++ "] " ++ ev.message),
              setOrder (st.buffer.map (·.container)), now⟩,
             if d = 0 then FlushTrigger.cap else FlushTrigger.debounce)) := by
  simp [batcherStep, ht, flushFn, hne, hp]

/-- Step equation: a completion signal with no batch in flight does
nothing. -/
theorem batcherStep_batchDone_idle (windowMs now : Nat) (st : BatcherState)
    (hp : st.isProcessing = false) :
    batcherStep windowMs now st BatcherAction.batchDone = (st, none) := by
  simp [batcherStep, hp]

/-- Step equation: a completing batch with pending events and no timer
schedules the follow-up flush (zero delay when the cap is already hit). -/
theorem batcherStep_batchDone_reschedule (windowMs now : Nat) (st : BatcherState)
    (hp : st.isProcessing = true) (hb : 0 < st.buffer.length) (ht : st.timerDelay = none) :
    batcherStep windowMs now st BatcherAction.batchDone =
      ({ st with isProcessing := false,
                 timerDelay := some (if MAX_BUFFER_SIZE ≤ st.buffer.length then 0 else windowMs) },
       none) := by
  simp [batcherStep, hp, hb, ht]

/-- Step equation: a completing batch with an empty buffer or a pending
timer just lowers the in-flight flag. -/
theorem batcherStep_batchDone_rest (windowMs now : Nat) (st : BatcherState)
    (hp : st.isProcessing = true)
    (hgo : (0 < st.buffer.length ∧ st.timerDelay = none) → False) :
    batcherStep windowMs now st BatcherAction.batchDone =
      ({ st with isProcessing := false }, none) := by
  have : ¬ (st.buffer.length > 0 && st.timerDelay.isNone) = true := by
    simp only [Bool.and_eq_true, decide_eq_true_eq, Option.isNone_iff_eq_none]
    rintro ⟨h1, h2⟩
    exact hgo ⟨h1, h2⟩
  simp [batcherStep, hp, this]

/-- Step equation: stopping cancels the timer and flushes nothing. -/
theorem batcherStep_stop (windowMs now : Nat) (st : BatcherState) :
    batcherStep windowMs now st BatcherAction.stopCalled =
      ({ st with timerDelay := none }, none) := by
  simp [batcherStep]

/-- One batcher transition preserves the zero-delay invariant (for a
positive debounce window). -/
theorem batcherStep_inv (windowMs now : Nat) (st : BatcherState) (act : BatcherAction)
    (hw : windowMs ≠ 0) (hinv : BatcherInv st) :
    BatcherInv (batcherStep windowMs now st act).1 := by
  cases act with
  | logEvent e =>
    by_cases hi : shouldInclude e
    · by_cases hp : st.isProcessing
      · rw [batcherStep_logEvent_processing windowMs now st e hi hp]
        intro h0
        have := hinv h0
        simp only [List.length_append, List.length_cons, List.length_nil]
        omega
      · by_cases hcap : MAX_BUFFER_SIZE ≤ (st.buffer ++ [e]).length
        · rw [batcherStep_logEvent_cap windowMs now st e hi (by simpa using hp) hcap]
          intro h0
          simp at h0
        · rw [batcherStep_logEvent_debounce windowMs now st e hi (by simpa using hp)
            (by omega)]
          intro h0
          simp only [Option.some.injEq] at h0
          exact absurd h0 hw
    · rw [batcherStep_logEvent_skip windowMs now st e (by simpa using hi)]
      exact hinv
  | timerFires =>
    cases ht : st.timerDelay with
    | none => rw [batcherStep_timer_none windowMs now st ht]; exact hinv
    | some d =>
      by_cases hguard : (st.buffer.isEmpty || st.isProcessing) = true
      · rw [batcherStep_timer_fire_noop windowMs now st d ht hguard]
        intro h0
        simp at h0
      · have hparts := hguard
        simp only [Bool.or_eq_true, not_or, Bool.not_eq_true] at hparts
        rw [batcherStep_timer_fire windowMs now st d ht hparts.1 hparts.2]
        intro h0
        simp at h0
  | batchDone =>
    by_cases hp : st.isProcessing
    · by_cases hgo : 0 < st.buffer.length ∧ st.timerDelay = none
      · rw [batcherStep_batchDone_reschedule windowMs now st hp hgo.1 hgo.2]
        intro h0
        simp only [Option.some.injEq] at h0
        by_cases hbig : MAX_BUFFER_SIZE ≤ st.buffer.length
        · simpa using hbig
        · rw [if_neg hbig] at h0
          exact absurd h0 hw
      · rw [batcherStep_batchDone_rest windowMs now st hp (fun hc => hgo hc)]
        intro h0
        exact hinv h0
    · rw [batcherStep_batchDone_idle windowMs now st (by simpa using hp)]
      exact hinv
  | stopCalled =>
    rw [batcherStep_stop]
    intro h0
    simp at h0

/-- A cap-triggered emission carries at least `MAX_BUFFER_SIZE` events
(under the zero-delay invariant). -/
theorem batcherStep_cap_ge (windowMs now : Nat) (st : BatcherState) (act : BatcherAction)
    (hinv : BatcherInv st) :
    ∀ b, (batcherStep windowMs now st act).2 = some (b, FlushTrigger.cap) →
      MAX_BUFFER_SIZE ≤ b.logs.length := by
  intro b hb
  cases act with
  | logEvent e =>
    by_cases hi : shouldInclude e
    · by_cases hp : st.isProcessing
      · rw [batcherStep_logEvent_processing windowMs now st e hi hp] at hb
        simp at hb
      · by_cases hcap : MAX_BUFFER_SIZE ≤ (st.buffer ++ [e]).length
        · rw [batcherStep_logEvent_cap windowMs now st e hi (by simpa using hp) hcap] at hb
          simp only [Option.some.injEq, Prod.mk.injEq] at hb
          rw [← hb.1]
          simpa using hcap
        · rw [batcherStep_logEvent_debounce windowMs now st e hi (by simpa using hp)
            (by omega)] at hb
          simp at hb
    · rw [batcherStep_logEvent_skip windowMs now st e (by simpa using hi)] at hb
      simp at hb
  | timerFires =>
    cases ht : st.timerDelay with
    | none => rw [batcherStep_timer_none windowMs now st ht] at hb; simp at hb
    | some d =>
      by_cases hguard : (st.buffer.isEmpty || st.isProcessing) = true
      · rw [batcherStep_timer_fire_noop windowMs now st d ht hguard] at hb
        simp at hb
      · have hparts := hguard
        simp only [Bool.or_eq_true, not_or, Bool.not_eq_true] at hparts
        rw [batcherStep_timer_fire windowMs now st d ht hparts.1 hparts.2] at hb
        simp only [Option.some.injEq, Prod.mk.injEq] at hb
        have hd : d = 0 := by
          by_contra hd0
          rw [if_neg hd0] at hb
          exact FlushTrigger.noConfusion hb.2
        have hbuf := hinv (ht.trans (by rw [hd]))
        rw [← hb.1]
        simpa using hbuf
  | batchDone =>
    by_cases hp : st.isProcessing
    · by_cases hgo : 0 < st.buffer.length ∧ st.timerDelay = none
      · rw [batcherStep_batchDone_reschedule windowMs now st hp hgo.1 hgo.2] at hb
        simp at hb
      · rw [batcherStep_batchDone_rest windowMs now st hp (fun hc => hgo hc)] at hb
        simp at hb
    · rw [batcherStep_batchDone_idle windowMs now st (by simpa using hp)] at hb
      simp at hb
  | stopCalled =>
    rw [batcherStep_stop] at hb
    simp at hb

/-- Every cap-triggered emission along a run from a state satisfying the
invariant carries at least `MAX_BUFFER_SIZE` events. -/
theorem batcherRun_cap_ge (windowMs : Nat) (hw : windowMs ≠ 0) :
    ∀ (trace : List (Nat × BatcherAction)) (st : BatcherState), BatcherInv st →
      ∀ b ∈ (batcherRun windowMs st trace).2, b.2 = FlushTrigger.cap →
        MAX_BUFFER_SIZE ≤ b.1.logs.length := by
  intro trace
  induction trace with
  | nil => intro st _ b hb; simp [batcherRun] at hb
  | cons ta rest ih =>
    intro st hinv b hb hcap
    obtain ⟨now, act⟩ := ta
    simp only [batcherRun, List.mem_append] at hb
    rcases hb with hb | hb
    · cases hstep : (batcherStep windowMs now st act).2 with
      | none => rw [hstep] at hb; simp at hb
      | some p =>
        rw [hstep] at hb
        simp at hb
        obtain ⟨b1, trig⟩ := p
        rw [hb] at hcap ⊢
        cases trig with
        | cap => exact batcherStep_cap_ge windowMs now st act hinv b1 hstep
        | debounce => simp at hcap
    · exact ih (batcherStep windowMs now st act).1
        (batcherStep_inv windowMs now st act hw hinv) b hb hcap

set_option maxRecDepth 10000 in
/-- C7, counterexample: on the trace `capTrace` (100 events, then 101
events arriving while the first batch callback is in flight, then the
completion and the zero-delay flush), the second cap-triggered flush
carries 101 events, so not every cap-triggered flush carries exactly
`MAX_BUFFER_SIZE` events. -/
theorem C7_counterexample :
    ¬ (∀ p ∈ (batcherRun 10000 initialBatcherState capTrace).2,
        p.2 = FlushTrigger.cap → p.1.logs.length = MAX_BUFFER_SIZE) := by
  decide

/-- C7, amended: whenever the buffer reaches `MAX_BUFFER_SIZE` on an
included event and no batch is being processed, the pending debounce
timer is cancelled and a flush of the whole buffer is emitted
immediately; and (for a positive debounce window) every batch flush
triggered by the buffer cap — immediately or through the zero-delay
rescheduled flush — carries at least `MAX_BUFFER_SIZE` events. -/
theorem C7_batcher_amended (windowMs : Nat) (hw : windowMs ≠ 0) :
    (∀ (now : Nat) (st : BatcherState) (e : LogEvent),
      st.isProcessing = false → shouldInclude e = true →
      MAX_BUFFER_SIZE ≤ st.buffer.length + 1 →
      batcherStep windowMs now st (BatcherAction.logEvent e) =
        (⟨[], none, true⟩,
         some (⟨(st.buffer ++ [e]).map (fun ev => "[" ++ ev.container ++ "] " ++ ev.message),
                setOrder ((st.buffer ++ [e]).map (·.container)), now⟩, FlushTrigger.cap))) ∧
    (∀ trace, ∀ b ∈ (batcherRun windowMs initialBatcherState trace).2,
      b.2 = FlushTrigger.cap → MAX_BUFFER_SIZE ≤ b.1.logs.length) := by
  constructor
  · intro now st e hp hi hcap
    exact batcherStep_logEvent_cap windowMs now st e hi hp (by simpa using hcap)
  · intro trace
    exact batcherRun_cap_ge windowMs hw trace initialBatcherState
      (by intro h0; simp [initialBatcherState] at h0)

/-- Witness for C7 (amended): the hundredth event flushes the whole
buffer immediately and cancels the pending timer. -/
theorem C7_witness :
    batcherStep 10000 7 ⟨List.replicate 99 capEvent, some 10000, false⟩
        (BatcherAction.logEvent capEvent) =
      (⟨[], none, true⟩,
       some (⟨(List.replicate 99 capEvent ++ [capEvent]).map
                (fun ev => "[" ++ ev.container ++ "] " ++ ev.message),
              setOrder ((List.replicate 99 capEvent ++ [capEvent]).map (·.container)), 7⟩,
             FlushTrigger.cap)) :=
  (C7_batcher_amended 10000 (by decide)).1 7 ⟨List.replicate 99 capEvent, some 10000, false⟩
    capEvent rfl (by decide) (by decide)

/-- The attempt counter after one iteration is exactly `applyEvent` of
the iteration's event, and the attempt limit never changes. -/
theorem orchStep_counter (inp : LoopInput) (s : IncidentResolutionState)
    (ctx : OrchestrationContext) :
    (orchStep inp s ctx).ctx.attemptCount =
      applyEvent ctx.attemptCount (orchStep inp s ctx).event ∧
    (orchStep inp s ctx).ctx.maxAttempts = ctx.maxAttempts := by
  obtain ⟨reasoner, escalation, approval, handler, now⟩ := inp
  by_cases hb : ctx.attemptCount ≥ ctx.maxAttempts
  · cases escalation <;>
      simp [orchStep, hb, applyEvent, isReplanEvent, isContextInjection,
        pushUser, pushModel, pushFact, pushHistory]
  · cases reasoner with
    | transportError m =>
      simp [orchStep, hb, applyEvent, isReplanEvent, isContextInjection, pushUser]
    | noToolCall =>
      simp [orchStep, hb, applyEvent, isReplanEvent, isContextInjection,
        pushUser, pushModel]
    | call name escR escC =>
      by_cases he : name = CapabilityName.escalate
      · cases escalation <;>
          simp [orchStep, hb, he, applyEvent, isReplanEvent, isContextInjection,
            pushUser, pushModel, pushFact, pushHistory]
      · by_cases ha : name = CapabilityName.requestApproval
        · cases approval <;>
            simp [orchStep, hb, he, ha, applyEvent, isReplanEvent, isContextInjection,
              pushUser, pushModel, pushHistory]
        · cases handler with
          | thrown m =>
            simp [orchStep, hb, he, ha, applyEvent, isReplanEvent, isContextInjection,
              pushUser, pushModel]
          | ok r =>
            by_cases hi : r.idle
            · simp [orchStep, hb, he, ha, hi, applyEvent, isReplanEvent,
                isContextInjection, pushUser, pushModel]
            · by_cases hrp : (name = CapabilityName.planRemediation && s.failureContext.isSome)
              · simp [orchStep, hb, he, ha, hi, hrp, applyEvent, isReplanEvent,
                  isContextInjection, pushUser, pushModel, pushHistory]
              · simp [orchStep, hb, he, ha, hi, hrp, applyEvent, isReplanEvent,
                  isContextInjection, pushUser, pushModel, pushHistory]

/-- With the attempt budget exhausted, the iteration is a circuit-breaker
escalation: the human either dismisses or provides context. -/
theorem orchStep_breaker (inp : LoopInput) (s : IncidentResolutionState)
    (ctx : OrchestrationContext) (hb : ctx.attemptCount ≥ ctx.maxAttempts) :
    ((orchStep inp s ctx).event = IterationEvent.circuitDismiss ∨
      ∃ c, (orchStep inp s ctx).event = IterationEvent.circuitReset c) ∧
    dispatchedName (orchStep inp s ctx).event = none := by
  obtain ⟨reasoner, escalation, approval, handler, now⟩ := inp
  cases escalation <;> simp [orchStep, hb, dispatchedName]

/-- A replan-flagged dispatch is a `planRemediation` invocation made
while a failure context was present. -/
theorem orchStep_replan_meaning (inp : LoopInput) (s : IncidentResolutionState)
    (ctx : OrchestrationContext) (n : CapabilityName) (idl : Bool)
    (hev : (orchStep inp s ctx).event = IterationEvent.dispatched n true idl) :
    n = CapabilityName.planRemediation ∧ s.failureContext.isSome = true := by
  obtain ⟨reasoner, escalation, approval, handler, now⟩ := inp
  by_cases hb : ctx.attemptCount ≥ ctx.maxAttempts
  · cases escalation <;> simp [orchStep, hb] at hev
  · cases reasoner with
    | transportError m => simp [orchStep, hb] at hev
    | noToolCall => simp [orchStep, hb] at hev
    | call name escR escC =>
      by_cases he : name = CapabilityName.escalate
      · cases escalation <;> simp [orchStep, hb, he] at hev
      · by_cases ha : name = CapabilityName.requestApproval
        · cases approval <;> simp [orchStep, hb, he, ha] at hev
        · cases handler with
          | thrown m => simp [orchStep, hb, he, ha] at hev
          | ok r =>
            by_cases hi : r.idle
            · simp [orchStep, hb, he, ha, hi] at hev
            · by_cases hrp : (name = CapabilityName.planRemediation && s.failureContext.isSome)
              · have hev2 := hev
                simp [orchStep, hb, he, ha, hi, hrp] at hev2
                simp only [Bool.and_eq_true, decide_eq_true_eq] at hrp
                exact ⟨hev2.1 ▸ hrp.1, hrp.2⟩
              · simp [orchStep, hb, he, ha, hi, hrp] at hev

/-- The attempt counter decreases only on a circuit-breaker reset driven
by user-provided context, which sets it to zero. -/
theorem orchStep_decrease (inp : LoopInput) (s : IncidentResolutionState)
    (ctx : OrchestrationContext)
    (hlt : (orchStep inp s ctx).ctx.attemptCount < ctx.attemptCount) :
    ∃ c, (orchStep inp s ctx).event = IterationEvent.circuitReset c ∧
      (orchStep inp s ctx).ctx.attemptCount = 0 := by
  have hc := (orchStep_counter inp s ctx).1
  cases hev : (orchStep inp s ctx).event with
  | circuitReset c =>
    refine ⟨c, rfl, ?_⟩
    rw [hc, hev]
    simp [applyEvent, isContextInjection]
  | dispatched n b idl =>
    rw [hc, hev] at hlt
    simp only [applyEvent, isReplanEvent, isContextInjection] at hlt
    cases b <;> simp at hlt
  | circuitDismiss =>
    rw [hc, hev] at hlt; simp [applyEvent, isReplanEvent, isContextInjection] at hlt
  | reasonerErrored =>
    rw [hc, hev] at hlt; simp [applyEvent, isReplanEvent, isContextInjection] at hlt
  | reasonerNoCall =>
    rw [hc, hev] at hlt; simp [applyEvent, isReplanEvent, isContextInjection] at hlt
  | inlineEscalateDismiss =>
    rw [hc, hev] at hlt; simp [applyEvent, isReplanEvent, isContextInjection] at hlt
  | inlineEscalateContinue c =>
    rw [hc, hev] at hlt; simp [applyEvent, isReplanEvent, isContextInjection] at hlt
  | approvalApproved =>
    rw [hc, hev] at hlt; simp [applyEvent, isReplanEvent, isContextInjection] at hlt
  | approvalRejected fb =>
    rw [hc, hev] at hlt; simp [applyEvent, isReplanEvent, isContextInjection] at hlt
  | handlerThrew =>
    rw [hc, hev] at hlt; simp [applyEvent, isReplanEvent, isContextInjection] at hlt

/-- A circuit-breaker dismissal sets the resolution to `dismissed`. -/
theorem orchStep_dismiss (inp : LoopInput) (s : IncidentResolutionState)
    (ctx : OrchestrationContext)
    (hev : (orchStep inp s ctx).event = IterationEvent.circuitDismiss) :
    (orchStep inp s ctx).state.resolution = Resolution.dismissed := by
  obtain ⟨reasoner, escalation, approval, handler, now⟩ := inp
  by_cases hb : ctx.attemptCount ≥ ctx.maxAttempts
  · cases escalation with
    | dismiss => simp [orchStep, hb]
    | provideContext c => simp [orchStep, hb] at hev
  · cases reasoner with
    | transportError m => simp [orchStep, hb] at hev
    | noToolCall => simp [orchStep, hb] at hev
    | call name escR escC =>
      by_cases he : name = CapabilityName.escalate
      · cases escalation <;> simp [orchStep, hb, he] at hev
      · by_cases ha : name = CapabilityName.requestApproval
        · cases approval <;> simp [orchStep, hb, he, ha] at hev
        · cases handler with
          | thrown m => simp [orchStep, hb, he, ha] at hev
          | ok r =>
            by_cases hi : r.idle <;> simp [orchStep, hb, he, ha, hi] at hev

/-- One iteration keeps the attempt counter within the budget. -/
theorem applyEvent_bound (inp : LoopInput) (s : IncidentResolutionState)
    (ctx : OrchestrationContext) (h : ctx.attemptCount ≤ ctx.maxAttempts) :
    applyEvent ctx.attemptCount (orchStep inp s ctx).event ≤ ctx.maxAttempts := by
  by_cases hb : ctx.attemptCount ≥ ctx.maxAttempts
  · rcases (orchStep_breaker inp s ctx hb).1 with hev | ⟨c, hev⟩ <;>
      · rw [hev]
        simp [applyEvent, isReplanEvent, isContextInjection]
        try omega
  · have hle : applyEvent ctx.attemptCount (orchStep inp s ctx).event ≤ ctx.attemptCount + 1 := by
      unfold applyEvent
      split_ifs <;> omega
    omega

/-- Along any run, every reached attempt-counter value stays within the
budget. -/
theorem orchRun_countersOK (inputs : List LoopInput) :
    ∀ (s : IncidentResolutionState) (ctx : OrchestrationContext),
      ctx.attemptCount ≤ ctx.maxAttempts →
      countersOK ctx.attemptCount ctx.maxAttempts (orchRun inputs s ctx).2 := by
  induction inputs with
  | nil => intro s ctx _; simp [orchRun, countersOK]
  | cons inp rest ih =>
    intro s ctx h
    by_cases hres : s.resolution = Resolution.pending
    · by_cases hhalt : (orchStep inp s ctx).halted
      · simp only [orchRun, hres, ne_eq, not_true_eq_false, if_false, hhalt, if_true]
        exact ⟨applyEvent_bound inp s ctx h, trivial⟩
      · simp only [orchRun, hres, ne_eq, not_true_eq_false, if_false, hhalt,
          Bool.false_eq_true]
        refine ⟨applyEvent_bound inp s ctx h, ?_⟩
        have hc := orchStep_counter inp s ctx
        have hih := ih (orchStep inp s ctx).state (orchStep inp s ctx).ctx
          (by rw [hc.1, hc.2]; exact applyEvent_bound inp s ctx h)
        rw [hc.1, hc.2] at hih
        exact hih
    · simp [orchRun, hres, countersOK]

/-- A prefix of a counter-bounded event list is counter-bounded. -/
theorem countersOK_take (m : Nat) :
    ∀ (l₁ : List IterationEvent) (c : Nat) (l₂ : List IterationEvent),
      countersOK c m (l₁ ++ l₂) → countersOK c m l₁ := by
  intro l₁
  induction l₁ with
  | nil => intro c l₂ _; trivial
  | cons e es ih => intro c l₂ h; exact ⟨h.1, ih _ _ h.2⟩

/-- Dropping a prefix of a counter-bounded event list leaves a
counter-bounded list starting from the folded counter. -/
theorem countersOK_drop (m : Nat) :
    ∀ (l₁ : List IterationEvent) (c : Nat) (l₂ : List IterationEvent),
      countersOK c m (l₁ ++ l₂) → countersOK (foldCounter c l₁) m l₂ := by
  intro l₁
  induction l₁ with
  | nil => intro c l₂ h; exact h
  | cons e es ih => intro c l₂ h; exact ih _ _ h.2

/-- The folded counter of a counter-bounded event list stays within the
budget. -/
theorem countersOK_fold_le (m : Nat) :
    ∀ (l : List IterationEvent) (c : Nat), countersOK c m l → c ≤ m →
      foldCounter c l ≤ m := by
  intro l
  induction l with
  | nil => intro c _ h; exact h
  | cons e es ih => intro c h _; exact ih _ h.2 h.1

/-- Over an injection-free event list the counter advances by exactly the
number of replan events. -/
theorem foldCounter_no_injection :
    ∀ (l : List IterationEvent) (c : Nat),
      (∀ e ∈ l, isContextInjection e = false) →
      foldCounter c l = c + l.countP isReplanEvent := by
  intro l
  induction l with
  | nil => intro c _; simp [foldCounter]
  | cons e es ih =>
    intro c h
    have he := h e (List.mem_cons_self _ _)
    have hrest := fun x hx => h x (List.mem_cons_of_mem _ hx)
    have hfold : foldCounter c (e :: es) = foldCounter (applyEvent c e) es := rfl
    rw [hfold, ih _ hrest, List.countP_cons]
    by_cases hr : isReplanEvent e <;>
      · simp [applyEvent, he, hr]
        try omega

/-- An injection-free segment of a counter-bounded event list contains at
most `m` replan events. -/
theorem countersOK_segment (m c : Nat) (pre mid post : List IterationEvent)
    (h : countersOK c m (pre ++ mid ++ post)) (hc : c ≤ m)
    (hni : ∀ e ∈ mid, isContextInjection e = false) :
    mid.countP isReplanEvent ≤ m := by
  have h' : countersOK c m (pre ++ (mid ++ post)) := by
    rwa [List.append_assoc] at h
  have h1 := countersOK_drop m pre c (mid ++ post) h'
  have hcpre : foldCounter c pre ≤ m :=
    countersOK_fold_le m pre c (countersOK_take m pre c _ h') hc
  have h2 := countersOK_take m mid (foldCounter c pre) post h1
  have h3 := countersOK_fold_le m mid (foldCounter c pre) h2 hcpre
  rw [foldCounter_no_injection mid (foldCounter c pre) hni] at h3
  omega

/-- C6: in every run of the orchestrator loop, the attempt counter moves
exactly by `applyEvent` — it is incremented only by a replan-flagged
dispatch, and such a dispatch is a `planRemediation` invocation made
while a failure context was present; whenever the counter has reached
`maxAttempts`, the iteration is an inline human escalation and no
capability is dispatched; the counter decreases only by the user-context
reset (to zero), and a breaker dismissal terminates the incident; hence
along any run from the initial state, any contiguous stretch of events
without a user-context injection contains at most `maxAttempts` replan
events. -/
theorem C6_bounded_attempts :
    (∀ (inp : LoopInput) (s : IncidentResolutionState) (ctx : OrchestrationContext),
      (orchStep inp s ctx).ctx.attemptCount =
        applyEvent ctx.attemptCount (orchStep inp s ctx).event) ∧
    (∀ (inp : LoopInput) (s : IncidentResolutionState) (ctx : OrchestrationContext)
        (n : CapabilityName) (idl : Bool),
      (orchStep inp s ctx).event = IterationEvent.dispatched n true idl →
      n = CapabilityName.planRemediation ∧ s.failureContext.isSome = true) ∧
    (∀ (inp : LoopInput) (s : IncidentResolutionState) (ctx : OrchestrationContext),
      ctx.attemptCount ≥ ctx.maxAttempts →
      ((orchStep inp s ctx).event = IterationEvent.circuitDismiss ∨
        ∃ c, (orchStep inp s ctx).event = IterationEvent.circuitReset c) ∧
      dispatchedName (orchStep inp s ctx).event = none) ∧
    (∀ (inp : LoopInput) (s : IncidentResolutionState) (ctx : OrchestrationContext),
      (orchStep inp s ctx).ctx.attemptCount < ctx.attemptCount →
      ∃ c, (orchStep inp s ctx).event = IterationEvent.circuitReset c ∧
        (orchStep inp s ctx).ctx.attemptCount = 0) ∧
    (∀ (inp : LoopInput) (s : IncidentResolutionState) (ctx : OrchestrationContext),
      (orchStep inp s ctx).event = IterationEvent.circuitDismiss →
      (orchStep inp s ctx).state.resolution = Resolution.dismissed) ∧
    (∀ (inputs : List LoopInput) (logs : List String) (m : Nat)
        (pre mid post : List IterationEvent),
      (orchRun inputs (createInitialState logs) (createInitialContext m)).2
        = pre ++ mid ++ post →
      (∀ e ∈ mid, isContextInjection e = false) →
      mid.countP isReplanEvent ≤ m) := by
  refine ⟨?_, ?_, ?_, ?_, ?_, ?_⟩
  · intro inp s ctx
    exact (orchStep_counter inp s ctx).1
  · intro inp s ctx n idl hev
    exact orchStep_replan_meaning inp s ctx n idl hev
  · intro inp s ctx hb
    exact orchStep_breaker inp s ctx hb
  · intro inp s ctx hlt
    exact orchStep_decrease inp s ctx hlt
  · intro inp s ctx hev
    exact orchStep_dismiss inp s ctx hev
  · intro inputs logs m pre mid post hsplit hni
    have hok := orchRun_countersOK inputs (createInitialState logs)
      (createInitialContext m) (by simp [createInitialContext])
    rw [hsplit] at hok
    exact countersOK_segment m 0 pre mid post
      (by simpa [createInitialContext] using hok)
      (Nat.zero_le m) hni

/-- Witness for C6: a concrete one-iteration run (a planRemediation
dispatch from the fresh initial state under budget 1) whose whole event
list is injection-free and carries at most one replan. -/
theorem C6_witness :
    ((orchRun
        [⟨ReasonerOutcome.call CapabilityName.planRemediation "" "",
          EscalationChoice.dismiss, ApprovalChoice.approve,
          HandlerOutcome.ok ⟨false, createInitialState ["x"], some "fail", false⟩, "t"⟩]
        (createInitialState ["x"])
        (createInitialContext 1)).2).countP isReplanEvent ≤ 1 :=
  C6_bounded_attempts.2.2.2.2.2
    [⟨ReasonerOutcome.call CapabilityName.planRemediation "" "",
      EscalationChoice.dismiss, ApprovalChoice.approve,
      HandlerOutcome.ok ⟨false, createInitialState ["x"], some "fail", false⟩, "t"⟩]
    ["x"] 1 []
    [IterationEvent.dispatched CapabilityName.planRemediation false false] []
    (by decide) (by decide)

end Nightwatch
